import Mathlib

/-!
# Verification of the tree-traversal core of `cm-language-java`

This file gives a shallow embedding of the traversal function family in
`src/traverse` (helpers.ts, traverser.ts, class/method/variable/import/type
modules) and of the `Outline` builder, and proves or refutes the frozen
claims about them.

Modelling conventions:

* A lezer syntax-tree node is a `Node`: a name, the parser error flag, a
  source span and ordered children.  The parser itself is an external
  collaborator; trees are arbitrary values of `Node`.
* The mutable lezer `TreeCursor` is a zipper (`Cursor`).  The source calls
  `firstChild()` / `nextSibling()` / `parent()` / `lastChild()` either for
  their boolean result or while ignoring it (in which case a failed move
  leaves the cursor in place); both styles are mirrored by the `...?`
  (Option) and `...Or` (stay-on-failure) operations.
* Callbacks are state-threading functions.  The JavaScript `data` argument
  and the mutable variables captured by the Outline's closures are both
  modelled by the threaded state `σ`.  Statement-level callbacks obey the
  documented contract that they leave the cursor where they found it, so a
  callback receives the cursor (by value) and returns only a new state or a
  thrown error; thrown errors carry the state at the throw, matching the
  fact that in JavaScript mutations of `data`/`this` survive an exception.
* `while`/`do-while` iterations over siblings are given a `fuel` parameter;
  running out of fuel produces the distinguished error `Err.fuelOut`, which
  never counts as a normal result (a JS loop that we cannot bound would
  simply not have returned yet).
* Thrown `AssertionError` / `UnexpectedNodeError` values and the Outline's
  `throw 0` are the `Err` error results.
* Identifier renamings forced by Lean keywords or the verification
  environment: the source's `syntaxError` / `syntaxErrorInline` helpers are
  `synError` / `synErrorInline`; `$error` slots are `errorCb`; interface
  fields named after keywords get a trailing underscore (`class_`, `if_`,
  `extends_`, ...); `annotation`-like slot names are shortened to `annot`
  (`traverseAnnot`, `returnAnnot`, `annotType`).
-/

namespace CmJava

/-- Static data of a syntax-tree node: grammar name, parser error flag and
source span (`from`/`to` in lezer, renamed because `from` is a Lean
keyword). -/
structure NodeInfo where
  name : String
  isError : Bool
  spanFrom : Nat
  spanTo : Nat
deriving DecidableEq, Repr

/-- A syntax-tree node: its `NodeInfo` plus ordered children. -/
inductive Node : Type where
  | mk (info : NodeInfo) (children : List Node) : Node
deriving Repr

/-- The `NodeInfo` of a node. -/
def Node.info : Node → NodeInfo
  | .mk i _ => i

/-- The ordered children of a node. -/
def Node.children : Node → List Node
  | .mk _ cs => cs

/-- The grammar name of a node. -/
def Node.name (n : Node) : String := n.info.name

/-- The parser error flag of a node. -/
def Node.isError (n : Node) : Bool := n.info.isError

/-- One zipper layer: the (reversed) siblings left of the current node, the
parent's `NodeInfo`, and the siblings right of the current node. -/
structure Crumb where
  before : List Node
  info : NodeInfo
  after : List Node
deriving Repr

/-- A lezer `TreeCursor`: the current node plus the zipper path up to the
root of the tree it was created on. -/
structure Cursor where
  cur : Node
  crumbs : List Crumb
deriving Repr

/-- A cursor placed on the root of a tree. -/
def Cursor.root (n : Node) : Cursor := ⟨n, []⟩

/-- `cursor.node.name` (also `cursor.name`) of the source. -/
def Cursor.name (c : Cursor) : String := c.cur.info.name

/-- `cursor.node.type.isError` of the source. -/
def Cursor.isError (c : Cursor) : Bool := c.cur.info.isError

/-- `cursor.from` of the source: start of the current node's span. -/
def Cursor.spanFrom (c : Cursor) : Nat := c.cur.info.spanFrom

/-- `cursor.to` of the source: end of the current node's span. -/
def Cursor.spanTo (c : Cursor) : Nat := c.cur.info.spanTo

/-- `cursor.firstChild()`: move to the first child when there is one. -/
def Cursor.firstChild? (c : Cursor) : Option Cursor :=
  match c.cur with
  | .mk i (x :: xs) => some ⟨x, ⟨[], i, xs⟩ :: c.crumbs⟩
  | .mk _ [] => none

/-- `cursor.lastChild()`: move to the last child when there is one. -/
def Cursor.lastChild? (c : Cursor) : Option Cursor :=
  match c.cur with
  | .mk i (x :: xs) =>
      some ⟨(x :: xs).getLast (by simp), ⟨((x :: xs).dropLast).reverse, i, []⟩ :: c.crumbs⟩
  | .mk _ [] => none

/-- `cursor.nextSibling()`: move to the next sibling when there is one. -/
def Cursor.nextSibling? (c : Cursor) : Option Cursor :=
  match c.crumbs with
  | ⟨b, i, x :: a⟩ :: cs => some ⟨x, ⟨c.cur :: b, i, a⟩ :: cs⟩
  | _ => none

/-- `cursor.parent()`: move to the parent when not at the root. -/
def Cursor.parent? (c : Cursor) : Option Cursor :=
  match c.crumbs with
  | ⟨b, i, a⟩ :: cs => some ⟨.mk i (b.reverse ++ c.cur :: a), cs⟩
  | [] => none

/-- `cursor.firstChild()` called with the result ignored: a failed move
leaves the cursor in place. -/
def Cursor.firstChildOr (c : Cursor) : Cursor := (c.firstChild?).getD c

/-- `cursor.lastChild()` called with the result ignored. -/
def Cursor.lastChildOr (c : Cursor) : Cursor := (c.lastChild?).getD c

/-- `cursor.nextSibling()` called with the result ignored. -/
def Cursor.nextSiblingOr (c : Cursor) : Cursor := (c.nextSibling?).getD c

/-- `cursor.parent()` called with the result ignored. -/
def Cursor.parentOr (c : Cursor) : Cursor := (c.parent?).getD c

/-- The error kinds delivered to `$error` callbacks (source enum
`TraverserError`). -/
inductive TravErr where
  | Unexpected
  | SyntaxError
deriving DecidableEq, Repr

/-- Abnormal terminations of a traversal: a failed `assert.equals` /
`assert.unreachable`, a thrown `UnexpectedNodeError`, a call of an
`undefined` slot through TypeScript's `!` operator, the Outline's
`throw 0`, and exhaustion of the loop fuel. -/
inductive Err where
  | assertFail (msg : String)
  | unexpectedNode (name : String)
  | undefinedCall (slot : String)
  | thrownVal
  | fuelOut
deriving DecidableEq, Repr

variable {σ : Type}

/-- Result of a computation threading state `σ`: a thrown error carries the
state at the throw (JavaScript mutations survive exceptions). -/
abbrev Exc (σ : Type) (α : Type) := Except (Err × σ) α

/-- A statement-level callback (`TraverserFunction`): receives the cursor,
returns a new state.  By the documented contract it leaves the cursor where
it found it, so no cursor is returned. -/
abbrev CursorCb (σ : Type) := Cursor → σ → Exc σ σ

/-- A `ConsumerFunction<TreeCursor | null, D>` callback. -/
abbrev OptCursorCb (σ : Type) := Option Cursor → σ → Exc σ σ

/-- A `ConsumerFunction<void, D>` callback. -/
abbrev UnitCb (σ : Type) := σ → Exc σ σ

/-- A `ConsumerFunction<ValidModifier, D>` callback. -/
abbrev ModifierCb (σ : Type) := String → σ → Exc σ σ

/-- A `TraverserErrorFunction` (`$error` slot). -/
abbrev ErrorCb (σ : Type) := TravErr → Cursor → σ → Exc σ σ

/-- Result of one traversal function: the cursor where the function left it
plus the final state, or a thrown error. -/
abbrev TravRes (σ : Type) := Exc σ (Cursor × σ)

/-- `traverser.slot?.(cursor, data)`: invoke an optional cursor callback. -/
def runOpt (f : Option (CursorCb σ)) (c : Cursor) (s : σ) : Exc σ σ :=
  match f with
  | none => .ok s
  | some f => f c s

/-- `traverser.slot?.(cursorOrNull, data)` for `TreeCursor | null` slots. -/
def runOptC (f : Option (OptCursorCb σ)) (a : Option Cursor) (s : σ) : Exc σ σ :=
  match f with
  | none => .ok s
  | some f => f a s

/-- `traverser.slot?.(undefined, data)` for `void` consumer slots. -/
def runUnit (f : Option (UnitCb σ)) (s : σ) : Exc σ σ :=
  match f with
  | none => .ok s
  | some f => f s

/-- `traverser.modifier?.(name, data)`. -/
def runModifier (f : Option (ModifierCb σ)) (m : String) (s : σ) : Exc σ σ :=
  match f with
  | none => .ok s
  | some f => f m s

/-- `traverser.$error?.(kind, cursor, data)`. -/
def runErrorCb (f : Option (ErrorCb σ)) (k : TravErr) (c : Cursor) (s : σ) : Exc σ σ :=
  match f with
  | none => .ok s
  | some f => f k c s

/-- Source helper `syntaxError`: if the current node is an error node, fire
`$error` with the `SyntaxError` kind and call `cursor.parent()`, reporting
`true`; otherwise report `false` and leave the cursor alone. -/
def synError (e : Option (ErrorCb σ)) (c : Cursor) (s : σ) :
    Exc σ (Bool × Cursor × σ) :=
  if c.isError then
    (runErrorCb e .SyntaxError c s).map (fun s => (true, c.parentOr, s))
  else
    .ok (false, c, s)

/-- Source helper `syntaxErrorInline`: like `synError` but without the
`cursor.parent()` call. -/
def synErrorInline (e : Option (ErrorCb σ)) (c : Cursor) (s : σ) :
    Exc σ (Bool × σ) :=
  if c.isError then
    (runErrorCb e .SyntaxError c s).map (fun s => (true, s))
  else
    .ok (false, s)

/-- The `if (syntaxError(...)) return;` pattern: check the current node,
early-return with the parented cursor on an error, otherwise continue. -/
def synErrorCheck (e : Option (ErrorCb σ)) (c : Cursor) (s : σ)
    (k : σ → Exc σ (Cursor × σ)) : Exc σ (Cursor × σ) := do
  let (wasErr, cp, s) ← synError e c s
  if wasErr then .ok (cp, s) else k s

/-- Source interface `AnnotationTraverser` (annotation.ts).  Fields: `name`,
`arguments`, `$error`. -/
structure AnnotTraverser (σ : Type) where
  errorCb : Option (ErrorCb σ) := none
  name : Option (CursorCb σ) := none
  arguments : Option (CursorCb σ) := none

/-- Source `traverseAnnotation` (annotation.ts): dispatch on
`MarkerAnnotation` / `Annotation`, fire `$error` on an error node, throw
`UnexpectedNodeError` otherwise, then `cursor.parent()` unconditionally. -/
def traverseAnnot (t : AnnotTraverser σ) (c : Cursor) (s : σ) : Exc σ (Cursor × σ) :=
  match c.name with
  | "MarkerAnnotation" => do
      let c1 := c.firstChildOr
      let s ← runOpt t.name c1 s
      .ok (c1.parentOr, s)
  | "Annotation" => do
      let c1 := c.firstChildOr
      let s ← runOpt t.name c1 s
      let c2 := c1.nextSiblingOr
      let s ← runOpt t.arguments c2 s
      .ok (c2.parentOr, s)
  | _ =>
      if c.isError then do
        let s ← runErrorCb t.errorCb .SyntaxError c s
        .ok (c.parentOr, s)
      else
        .error (.unexpectedNode c.name, s)

/-- Source interface `ClassTraverser` (class.ts). -/
structure ClassTraverser (σ : Type) where
  errorCb : Option (ErrorCb σ) := none
  modifiers : Option (CursorCb σ) := none
  name : Option (CursorCb σ) := none
  typeParameters : Option (CursorCb σ) := none
  extends_ : Option (CursorCb σ) := none
  implements_ : Option (CursorCb σ) := none
  body : Option (CursorCb σ) := none

/-- The `do { switch ... } while (cursor.nextSibling()); cursor.parent();`
loop of source `traverseClass`, one fuel unit per iteration. -/
def traverseClassLoop (t : ClassTraverser σ) : Nat → Cursor → σ → Exc σ (Cursor × σ)
  | 0, _, s => .error (.fuelOut, s)
  | fuel + 1, c, s =>
    let next : Cursor → σ → Exc σ (Cursor × σ) := fun c s =>
      match c.nextSibling? with
      | some c2 => traverseClassLoop t fuel c2 s
      | none => .ok (c.parentOr, s)
    match c.name with
    | "Modifiers" => do
        let s ← runOpt t.modifiers c s
        next c s
    | "class" => next c s
    | "Definition" => do
        let s ← runOpt t.name c s
        next c s
    | "TypeParameters" => do
        let s ← runOpt t.typeParameters c s
        next c s
    | "Superclass" => do
        let c1 := c.lastChildOr
        let s ← runOpt t.extends_ c1 s
        next c1.parentOr s
    | "SuperInterfaces" => do
        let c1 := c.lastChildOr
        let s ← runOpt t.implements_ c1 s
        next c1.parentOr s
    | "ClassBody" => do
        let s ← runOpt t.body c s
        next c s
    | _ => do
        let (wasErr, cp, s) ← synError t.errorCb c s
        if wasErr then
          .ok (cp, s)
        else
          .error (.unexpectedNode c.name, s)

/-- Source `traverseClass` (class.ts): assert `ClassDeclaration`, enter the
first child and run the dispatch loop. -/
def traverseClass (t : ClassTraverser σ) (fuel : Nat) (c : Cursor) (s : σ) :
    Exc σ (Cursor × σ) :=
  if c.name = "ClassDeclaration" then
    traverseClassLoop t fuel c.firstChildOr s
  else
    .error (.assertFail ("Unexpected node: " ++ c.name), s)

/-- Source interface `ClassBodyTraverser` (class.ts). -/
structure ClassBodyTraverser (σ : Type) where
  errorCb : Option (ErrorCb σ) := none
  field : Option (CursorCb σ) := none
  method : Option (CursorCb σ) := none
  class_ : Option (CursorCb σ) := none
  interface_ : Option (CursorCb σ) := none
  annotType : Option (CursorCb σ) := none
  enum_ : Option (CursorCb σ) := none
  initCb : Option (CursorCb σ) := none
  staticInitCb : Option (CursorCb σ) := none
  classConstructor : Option (CursorCb σ) := none

/-- The member loop of source `traverseClassBody`: `Loop: { do { switch ... }
while (cursor.nextSibling()); assert.unreachable(); } cursor.parent();`.
`break Loop` on `"\x7d"` ends with `cursor.parent()`; running off the sibling
list hits `assert.unreachable()`. -/
def traverseClassBodyLoop (t : ClassBodyTraverser σ) : Nat → Cursor → σ → Exc σ (Cursor × σ)
  | 0, _, s => .error (.fuelOut, s)
  | fuel + 1, c, s =>
    let next : Cursor → σ → Exc σ (Cursor × σ) := fun c s =>
      match c.nextSibling? with
      | some c2 => traverseClassBodyLoop t fuel c2 s
      | none => .error (.assertFail "Unreachable code", s)
    match c.name with
    | ";" => next c s
    | "\x7d" => .ok (c.parentOr, s)
    | "FieldDeclaration" => do
        let s ← runOpt t.field c s
        next c s
    | "MethodDeclaration" => do
        let s ← runOpt t.method c s
        next c s
    | "ClassDeclaration" => do
        let s ← runOpt t.class_ c s
        next c s
    | "InterfaceDeclaration" => do
        let s ← runOpt t.interface_ c s
        next c s
    | "AnnotationTypeDeclaration" => do
        let s ← runOpt t.annotType c s
        next c s
    | "EnumDeclaration" => do
        let s ← runOpt t.enum_ c s
        next c s
    | "Block" => do
        let s ← runOpt t.initCb c s
        next c s
    | "StaticInitializer" => do
        let c1 := c.lastChildOr
        let s ← runOpt t.staticInitCb c1 s
        next c1.parentOr s
    | "ConstructorDeclaration" => do
        let s ← runOpt t.classConstructor c s
        next c s
    | _ => do
        let (wasErr, cp, s) ← synError t.errorCb c s
        if wasErr then
          .ok (cp, s)
        else
          .error (.unexpectedNode c.name, s)

/-- Source `traverseClassBody` (class.ts): assert `ClassBody`, enter the
first child, handle an error there, assert the `"\x7b"`, step past it and run
the member loop. -/
def traverseClassBody (t : ClassBodyTraverser σ) (fuel : Nat) (c : Cursor)
    (s : σ) : Exc σ (Cursor × σ) :=
  if c.name = "ClassBody" then
    let c1 := c.firstChildOr
    synErrorCheck t.errorCb c1 s fun s =>
      if c1.name = "\x7b" then
        traverseClassBodyLoop t fuel c1.nextSiblingOr s
      else
        .error (.assertFail ("Unexpected node: " ++ c1.name), s)
  else
    .error (.assertFail ("Unexpected node: " ++ c.name), s)

/-- Source interface `MethodTraverser` (method.ts).  `returnAnnot` is the
source's `returnAnnotation` slot. -/
structure MethodTraverser (σ : Type) where
  errorCb : Option (ErrorCb σ) := none
  methodModifiers : Option (CursorCb σ) := none
  typeParameters : Option (CursorCb σ) := none
  returnAnnot : Option (CursorCb σ) := none
  returnType : Option (CursorCb σ) := none
  name : Option (CursorCb σ) := none
  parameters : Option (CursorCb σ) := none
  extraReturnDim : Option (CursorCb σ) := none
  throws : Option (CursorCb σ) := none
  body : Option (CursorCb σ) := none
  noBody : Option (UnitCb σ) := none

/-- The `while (cursor.nextSibling())` loop inside the `TypeParams:` labelled
block of source `traverseMethod`: forward return-type annotations (guarded by
`hasRA = returnAnnotation !== undefined`, i.e. the correct slot), stop on the
first other node. -/
def methodTPLoop (t : MethodTraverser σ) : Nat → Cursor → σ → Exc σ (Cursor × σ)
  | 0, _, s => .error (.fuelOut, s)
  | fuel + 1, c, s =>
    match c.nextSibling? with
    | none => .ok (c, s)
    | some c2 =>
      match c2.name with
      | "Annotation" =>
        (match t.returnAnnot with
         | some f => do
             let s ← f c2 s
             methodTPLoop t fuel c2 s
         | none => methodTPLoop t fuel c2 s)
      | "MarkerAnnotation" =>
        (match t.returnAnnot with
         | some f => do
             let s ← f c2 s
             methodTPLoop t fuel c2 s
         | none => methodTPLoop t fuel c2 s)
      | _ => .ok (c2, s)

/-- The trailing-`Dimension` loop of source `traverseMethod`:
`while (cursor.nextSibling() && cursor.node.name === "Dimension") {
if (hasP) traverser.extraReturnDim!(cursor, data); }` where
`hasP = traverser.parameters !== undefined` — note that the guard tests the
`parameters` slot while the non-null-asserted call is on `extraReturnDim`;
calling it while it is `undefined` is the TypeScript runtime error modelled
by `Err.undefinedCall`. -/
def methodDimLoop (t : MethodTraverser σ) (hasP : Bool) :
    Nat → Cursor → σ → Exc σ (Cursor × σ)
  | 0, _, s => .error (.fuelOut, s)
  | fuel + 1, c, s =>
    match c.nextSibling? with
    | none => .ok (c, s)
    | some c2 =>
      if c2.name = "Dimension" then
        if hasP then
          match t.extraReturnDim with
          | some f => do
              let s ← f c2 s
              methodDimLoop t hasP fuel c2 s
          | none => .error (.undefinedCall "extraReturnDim", s)
        else methodDimLoop t hasP fuel c2 s
      else .ok (c2, s)

/-- The final `switch` of source `traverseMethod` (`";"` fires `noBody`,
`"Block"` fires `body`, anything else falls through) followed by the closing
`cursor.parent()`. -/
def methodTail (t : MethodTraverser σ) (c : Cursor) (s : σ) :
    Exc σ (Cursor × σ) :=
  match c.name with
  | ";" => do
      let s ← runUnit t.noBody s
      .ok (c.parentOr, s)
  | "Block" => do
      let s ← runOpt t.body c s
      .ok (c.parentOr, s)
  | _ => .ok (c.parentOr, s)

/-- Source `traverseMethod` after the optional modifiers and type-parameter
prefix: the positional return type / name / parameters / trailing dimensions
/ throws / body sequence, each step guarded by `if (syntaxError) return`. -/
def methodFromReturnType (t : MethodTraverser σ) (fuel : Nat) (c3 : Cursor)
    (s : σ) : Exc σ (Cursor × σ) :=
  synErrorCheck t.errorCb c3 s fun s => do
    let s ← runOpt t.returnType c3 s
    let c4 := c3.nextSiblingOr
    synErrorCheck t.errorCb c4 s fun s => do
      let s ← runOpt t.name c4 s
      let c5 := c4.nextSiblingOr
      synErrorCheck t.errorCb c5 s fun s => do
        let s ← runOpt t.parameters c5 s
        let (c6, s) ← methodDimLoop t t.parameters.isSome fuel c5 s
        synErrorCheck t.errorCb c6 s fun s =>
          if c6.name = "Throws" then do
            let s ← runOpt t.throws c6 s
            let c7 := c6.nextSiblingOr
            synErrorCheck t.errorCb c7 s fun s => methodTail t c7 s
          else
            methodTail t c6 s

/-- Source `traverseMethod`, the `TypeParams:` labelled block: forward the
type parameters and the interleaved return-type annotations, then continue
with the positional tail. -/
def methodFromTypeParams (t : MethodTraverser σ) (fuel : Nat) (c2 : Cursor)
    (s : σ) : Exc σ (Cursor × σ) :=
  if c2.name = "TypeParameters" then do
    let s ← runOpt t.typeParameters c2 s
    let (c3, s) ← methodTPLoop t fuel c2 s
    methodFromReturnType t fuel c3 s
  else methodFromReturnType t fuel c2 s

/-- Source `traverseMethod` (method.ts): assert `MethodDeclaration`, enter
the first child, handle the optional `Modifiers` child and hand over to the
positional stages. -/
def traverseMethod (t : MethodTraverser σ) (fuel : Nat) (c : Cursor) (s : σ) :
    Exc σ (Cursor × σ) :=
  if c.name = "MethodDeclaration" then
    let c1 := c.firstChildOr
    if c1.name = "Modifiers" then do
      let s ← runOpt t.methodModifiers c1 s
      methodFromTypeParams t fuel c1.nextSiblingOr s
    else methodFromTypeParams t fuel c1 s
  else .error (.assertFail ("Unexpected node: " ++ c.name), s)

/-- Source interface `FieldTraverser` (variable.ts). -/
structure FieldTraverser (σ : Type) where
  errorCb : Option (ErrorCb σ) := none
  modifiers : Option (CursorCb σ) := none
  type_ : Option (CursorCb σ) := none
  declarator : Option (CursorCb σ) := none

/-- The declarator loop of source `traverseField`:
`do { if (syntaxError) return; declarator?; }
while (cursor.nextSibling() && cursor.node.name !== ";")` followed by
`cursor.parent()`. -/
def traverseFieldLoop (t : FieldTraverser σ) : Nat → Cursor → σ → Exc σ (Cursor × σ)
  | 0, _, s => .error (.fuelOut, s)
  | fuel + 1, c, s =>
    synErrorCheck t.errorCb c s fun s => do
      let s ← runOpt t.declarator c s
      match c.nextSibling? with
      | some c2 =>
          if c2.name = ";" then .ok (c2.parentOr, s)
          else traverseFieldLoop t fuel c2 s
      | none => .ok (c.parentOr, s)

/-- Source `traverseField` (variable.ts): assert `FieldDeclaration`, skip an
optional `Modifiers` child, fire `type`, then run the declarator loop. -/
def traverseField (t : FieldTraverser σ) (fuel : Nat) (c : Cursor) (s : σ) :
    Exc σ (Cursor × σ) :=
  if c.name = "FieldDeclaration" then
    let c1 := c.firstChildOr
    synErrorCheck t.errorCb c1 s fun s =>
      let step : Cursor → σ → Exc σ (Cursor × σ) := fun c s => do
        let s ← runOpt t.type_ c s
        traverseFieldLoop t fuel c.nextSiblingOr s
      if c1.name = "Modifiers" then do
        let s ← runOpt t.modifiers c1 s
        let c2 := c1.nextSiblingOr
        synErrorCheck t.errorCb c2 s (fun s => step c2 s)
      else step c1 s
  else .error (.assertFail ("Unexpected node: " ++ c.name), s)

/-- Source interface `VariableDeclaratorTraverser` (variable.ts).  Its
`noInitializer` slot is documented as "Called if there is no initializer for
this variable", but the source function body contains no call of it. -/
structure VariableDeclaratorTraverser (σ : Type) where
  errorCb : Option (ErrorCb σ) := none
  name : Option (CursorCb σ) := none
  dimension : Option (CursorCb σ) := none
  initializer : Option (CursorCb σ) := none
  noInitializer : Option (UnitCb σ) := none

/-- The `Dimension` loop of `traverseVariableDeclarator` when the `dimension`
slot is defined: `while (name === "Dimension") { dimension(cursor);
if (!cursor.nextSibling()) break; }`. -/
def vdDimLoopCb (f : CursorCb σ) : Nat → Cursor → σ → Exc σ (Cursor × σ)
  | 0, _, s => .error (.fuelOut, s)
  | fuel + 1, c, s =>
    if c.name = "Dimension" then do
      let s ← f c s
      match c.nextSibling? with
      | some c2 => vdDimLoopCb f fuel c2 s
      | none => .ok (c, s)
    else .ok (c, s)

/-- The `Dimension` loop of `traverseVariableDeclarator` when the `dimension`
slot is undefined: `while (name === "Dimension" && cursor.nextSibling());`. -/
def vdDimLoopSkip : Nat → Cursor → σ → Exc σ (Cursor × σ)
  | 0, _, s => .error (.fuelOut, s)
  | fuel + 1, c, s =>
    if c.name = "Dimension" then
      match c.nextSibling? with
      | some c2 => vdDimLoopSkip fuel c2 s
      | none => .ok (c, s)
    else .ok (c, s)

/-- Source `traverseVariableDeclarator` (variable.ts): name, per-variable
dimensions, and — only when the `initializer` slot is defined and an `"="`
follows — the initializer.  No code path invokes `noInitializer`. -/
def traverseVariableDeclarator (t : VariableDeclaratorTraverser σ) (fuel : Nat)
    (c : Cursor) (s : σ) : Exc σ (Cursor × σ) :=
  if c.name = "VariableDeclarator" then
    let c1 := c.firstChildOr
    synErrorCheck t.errorCb c1 s fun s => do
      let s ← runOpt t.name c1 s
      match c1.nextSibling? with
      | none => .ok (c1.parentOr, s)
      | some c2 => do
        let (c3, s) ←
          match t.dimension with
          | some f => vdDimLoopCb f fuel c2 s
          | none => vdDimLoopSkip fuel c2 s
        synErrorCheck t.errorCb c3 s fun s =>
          match t.initializer with
          | some f =>
            if c3.name = "=" then do
              let c4 := c3.nextSiblingOr
              synErrorCheck t.errorCb c4 s fun s => do
                let s ← f c4 s
                .ok (c4.parentOr, s)
            else .ok (c3.parentOr, s)
          | none => .ok (c3.parentOr, s)
  else .error (.assertFail ("Unexpected node: " ++ c.name), s)

/-- The `validModifiers` set of traverser.ts. -/
def validModifiers : List String :=
  ["public", "protected", "private", "abstract", "static", "final",
   "strictfp", "default", "synchronized", "native", "transient", "volatile"]

/-- Source interface `ModifiersTraverser` (traverser.ts); `annot` is the
source's `annotation` slot. -/
structure ModifiersTraverser (σ : Type) where
  errorCb : Option (ErrorCb σ) := none
  modifier : Option (ModifierCb σ) := none
  annot : Option (CursorCb σ) := none

/-- The child loop of source `traverseModifiers`. -/
def traverseModifiersLoop (t : ModifiersTraverser σ) :
    Nat → Cursor → σ → Exc σ (Cursor × σ)
  | 0, _, s => .error (.fuelOut, s)
  | fuel + 1, c, s =>
    let next : σ → Exc σ (Cursor × σ) := fun s =>
      match c.nextSibling? with
      | some c2 => traverseModifiersLoop t fuel c2 s
      | none => .ok (c.parentOr, s)
    if c.name ∈ validModifiers then do
      let s ← runModifier t.modifier c.name s
      next s
    else
      match c.name with
      | "Annotation" => do
          let s ← runOpt t.annot c s
          next s
      | "MarkerAnnotation" => do
          let s ← runOpt t.annot c s
          next s
      | _ => do
          let (wasErr, cp, s) ← synError t.errorCb c s
          if wasErr then .ok (cp, s)
          else .error (.unexpectedNode c.name, s)

/-- Source `traverseModifiers` (traverser.ts): guarded by
`if (cursor.firstChild())`. -/
def traverseModifiers (t : ModifiersTraverser σ) (fuel : Nat) (c : Cursor)
    (s : σ) : Exc σ (Cursor × σ) :=
  match c.firstChild? with
  | some c1 => traverseModifiersLoop t fuel c1 s
  | none => .ok (c, s)

/-- Source interface `DeclarationsTraverser` (traverser.ts). -/
structure DeclarationsTraverser (σ : Type) where
  errorCb : Option (ErrorCb σ) := none
  module_ : Option (CursorCb σ) := none
  package_ : Option (CursorCb σ) := none
  import_ : Option (CursorCb σ) := none
  class_ : Option (CursorCb σ) := none
  interface_ : Option (CursorCb σ) := none
  annotType : Option (CursorCb σ) := none
  enum_ : Option (CursorCb σ) := none

/-- The child loop of source `traverseDeclarations`: known declaration kinds
fire their slot, everything else fires `$error` with `SyntaxError` for error
nodes and `Unexpected` for valid-but-unknown nodes, and in every case the
loop `continue`s with the next sibling. -/
def traverseDeclarationsLoop (t : DeclarationsTraverser σ) :
    Nat → Cursor → σ → Exc σ (Cursor × σ)
  | 0, _, s => .error (.fuelOut, s)
  | fuel + 1, c, s =>
    let next : σ → Exc σ (Cursor × σ) := fun s =>
      match c.nextSibling? with
      | some c2 => traverseDeclarationsLoop t fuel c2 s
      | none => .ok (c.parentOr, s)
    match c.name with
    | "ModuleDeclaration" => do
        let s ← runOpt t.module_ c s
        next s
    | "PackageDeclaration" => do
        let s ← runOpt t.package_ c s
        next s
    | "ImportDeclaration" => do
        let s ← runOpt t.import_ c s
        next s
    | "ClassDeclaration" => do
        let s ← runOpt t.class_ c s
        next s
    | "InterfaceDeclaration" => do
        let s ← runOpt t.interface_ c s
        next s
    | "AnnotationTypeDeclaration" => do
        let s ← runOpt t.annotType c s
        next s
    | "EnumDeclaration" => do
        let s ← runOpt t.enum_ c s
        next s
    | _ => do
        let s ←
          if c.isError then runErrorCb t.errorCb .SyntaxError c s
          else runErrorCb t.errorCb .Unexpected c s
        next s

/-- Source `traverseDeclarations` (traverser.ts): guarded by
`if (cursor.firstChild())`; no kind assertion on the given node. -/
def traverseDeclarations (t : DeclarationsTraverser σ) (fuel : Nat) (c : Cursor)
    (s : σ) : Exc σ (Cursor × σ) :=
  match c.firstChild? with
  | some c1 => traverseDeclarationsLoop t fuel c1 s
  | none => .ok (c, s)

/-- Source interface `StatementsTraverser` (instructions.ts).  Slots whose
source name is a Lean keyword carry a trailing underscore. -/
structure StatementsTraverser (σ : Type) where
  errorCb : Option (ErrorCb σ) := none
  module_ : Option (CursorCb σ) := none
  package_ : Option (CursorCb σ) := none
  import_ : Option (CursorCb σ) := none
  class_ : Option (CursorCb σ) := none
  interface_ : Option (CursorCb σ) := none
  annotType : Option (CursorCb σ) := none
  enum_ : Option (CursorCb σ) := none
  expression : Option (CursorCb σ) := none
  labeledStatement : Option (CursorCb σ) := none
  if_ : Option (CursorCb σ) := none
  while_ : Option (CursorCb σ) := none
  for_ : Option (CursorCb σ) := none
  enhancedFor : Option (CursorCb σ) := none
  block : Option (CursorCb σ) := none
  assert_ : Option (CursorCb σ) := none
  switch_ : Option (CursorCb σ) := none
  doWhile : Option (OptCursorCb σ) := none
  break_ : Option (OptCursorCb σ) := none
  continue_ : Option (OptCursorCb σ) := none
  return_ : Option (OptCursorCb σ) := none
  synchronized_ : Option (CursorCb σ) := none
  localVariable : Option (CursorCb σ) := none
  throw_ : Option (OptCursorCb σ) := none
  try_ : Option (CursorCb σ) := none
  tryWithResources : Option (CursorCb σ) := none

/-- The shared shape of the `BreakStatement` / `ContinueStatement` /
`ReturnStatement` / `ThrowStatement` cases of source `traverseBlock`:
`cursor.firstChild(); cursor.nextSibling(); if (cursor.name === ";")
slot?.(null) else slot?.(cursor); cursor.parent();`.  Returns the cursor
after the `parent()` call so the sibling loop can continue from it. -/
def operandStep (f : Option (OptCursorCb σ)) (c : Cursor) (s : σ) :
    Exc σ (Cursor × σ) := do
  let c1 := c.firstChildOr
  let c2 := c1.nextSiblingOr
  let s ←
    if c2.name = ";" then runOptC f none s
    else runOptC f (some c2) s
  .ok (c2.parentOr, s)

/-- The statement loop of source `traverseBlock` (instructions.ts). -/
def traverseBlockLoop (t : StatementsTraverser σ) :
    Nat → Cursor → σ → Exc σ (Cursor × σ)
  | 0, _, s => .error (.fuelOut, s)
  | fuel + 1, c, s =>
    let next : Cursor → σ → Exc σ (Cursor × σ) := fun c s =>
      match c.nextSibling? with
      | some c2 => traverseBlockLoop t fuel c2 s
      | none => .ok (c.parentOr, s)
    match c.name with
    | ";" => next c s
    | "ModuleDeclaration" => do
        let s ← runOpt t.module_ c s
        next c s
    | "PackageDeclaration" => do
        let s ← runOpt t.package_ c s
        next c s
    | "ImportDeclaration" => do
        let s ← runOpt t.import_ c s
        next c s
    | "ClassDeclaration" => do
        let s ← runOpt t.class_ c s
        next c s
    | "InterfaceDeclaration" => do
        let s ← runOpt t.interface_ c s
        next c s
    | "AnnotationTypeDeclaration" => do
        let s ← runOpt t.annotType c s
        next c s
    | "EnumDeclaration" => do
        let s ← runOpt t.enum_ c s
        next c s
    | "ExpressionStatement" => do
        let s ← runOpt t.expression c s
        next c s
    | "LabeledStatement" => do
        let s ← runOpt t.labeledStatement c s
        next c s
    | "IfStatement" => do
        let s ← runOpt t.if_ c s
        next c s
    | "WhileStatement" => do
        let s ← runOpt t.while_ c s
        next c s
    | "ForStatement" => do
        let s ← runOpt t.for_ c s
        next c s
    | "EnhancedForStatement" => do
        let s ← runOpt t.enhancedFor c s
        next c s
    | "Block" => do
        let s ← runOpt t.block c s
        next c s
    | "AssertStatement" => do
        let s ← runOpt t.assert_ c s
        next c s
    | "SwitchStatement" => do
        let s ← runOpt t.switch_ c s
        next c s
    | "DoStatement" => do
        let s ← runOptC t.doWhile (some c) s
        next c s
    | "BreakStatement" => do
        let (c2, s) ← operandStep t.break_ c s
        next c2 s
    | "ContinueStatement" => do
        let (c2, s) ← operandStep t.continue_ c s
        next c2 s
    | "ReturnStatement" => do
        let (c2, s) ← operandStep t.return_ c s
        next c2 s
    | "SynchronizedStatement" => do
        let s ← runOpt t.synchronized_ c s
        next c s
    | "LocalVariableStatement" => do
        let s ← runOpt t.localVariable c s
        next c s
    | "ThrowStatement" => do
        let (c2, s) ← operandStep t.throw_ c s
        next c2 s
    | "TryStatement" => do
        let s ← runOpt t.try_ c s
        next c s
    | "TryWithResourcesStatement" => do
        let s ← runOpt t.tryWithResources c s
        next c s
    | _ => do
        let (wasErr, cp, s) ← synError t.errorCb c s
        if wasErr then .ok (cp, s)
        else .error (.unexpectedNode c.name, s)

/-- Source `traverseBlock` (instructions.ts): assert `Block`, then the
statement loop guarded by `if (cursor.firstChild())`. -/
def traverseBlock (t : StatementsTraverser σ) (fuel : Nat) (c : Cursor)
    (s : σ) : Exc σ (Cursor × σ) :=
  if c.name = "Block" then
    match c.firstChild? with
    | some c1 => traverseBlockLoop t fuel c1 s
    | none => .ok (c, s)
  else .error (.assertFail ("Unexpected node: " ++ c.name), s)

/-- Source interface `NameTraverser` (import.ts): `identifier` is the one
required slot of the whole family; `path` is optional. -/
structure NameTraverser (σ : Type) where
  errorCb : Option (ErrorCb σ) := none
  path : Option (CursorCb σ) := none
  identifier : CursorCb σ

/-- The descent loop of source `traverseName`:
`while (cursor.node.name !== "Identifier") { assert ScopedIdentifier;
cursor.firstChild(); depth++; if (syntaxErrorInline(...)) break; }`.
Returns the final `depth` and cursor. -/
def nameDescendLoop (t : NameTraverser σ) :
    Nat → Cursor → σ → Nat → Exc σ (Nat × Cursor × σ)
  | 0, _, s, _ => .error (.fuelOut, s)
  | fuel + 1, c, s, depth =>
    if c.name = "Identifier" then .ok (depth, c, s)
    else if c.name = "ScopedIdentifier" then do
      let c1 := c.firstChildOr
      let (wasErr, s) ← synErrorInline t.errorCb c1 s
      if wasErr then .ok (depth + 1, c1, s)
      else nameDescendLoop t fuel c1 s (depth + 1)
    else .error (.assertFail ("Unexpected node: " ++ c.name), s)

/-- The `while (depth--)` loop of source `traverseName`: fire `path!` on the
current node, skip the `"."`, fire `path!` on the following node (each step
guarded by `syntaxErrorInline` with `break Error`), then `cursor.parent()`
and iterate.  `f` is the (defined) `path` callback. -/
def nameDepthLoop (t : NameTraverser σ) (f : CursorCb σ) :
    Nat → Cursor → σ → Exc σ (Cursor × σ)
  | 0, c, s => .ok (c, s)
  | d + 1, c, s => do
      let s ← f c s
      let c1 := c.nextSiblingOr
      let (wasErr, s) ← synErrorInline t.errorCb c1 s
      if wasErr then nameDepthLoop t f d c1.parentOr s
      else do
        let c2 := c1.nextSiblingOr
        let (wasErr2, s) ← synErrorInline t.errorCb c2 s
        if wasErr2 then nameDepthLoop t f d c2.parentOr s
        else do
          let s ← f c2 s
          nameDepthLoop t f d c2.parentOr s

/-- Source `traverseName` (import.ts): a bare `Identifier` fires `identifier`
directly; with a defined `path` slot the function descends to the innermost
identifier counting `depth`, unwinds firing `path` twice per level, and fires
`identifier` on the trailing identifier; without `path` it shortcuts via
`lastChild`. -/
def traverseName (t : NameTraverser σ) (fuel : Nat) (c : Cursor) (s : σ) :
    Exc σ (Cursor × σ) :=
  if c.name = "Identifier" then do
    let s ← t.identifier c s
    .ok (c, s)
  else
    match t.path with
    | some f => do
        let c1 := c.firstChildOr
        synErrorCheck t.errorCb c1 s fun s => do
          let (depth, c2, s) ← nameDescendLoop t fuel c1 s 0
          let (c3, s) ← nameDepthLoop t f depth c2 s
          let c4 := c3.nextSiblingOr
          synErrorCheck t.errorCb c4 s fun s => do
            let c5 := c4.nextSiblingOr
            synErrorCheck t.errorCb c5 s fun s => do
              let s ← t.identifier c5 s
              .ok (c5.parentOr, s)
    | none =>
        if c.name = "ScopedIdentifier" then do
          let c1 := c.lastChildOr
          let s ← t.identifier c1 s
          .ok (c1.parentOr, s)
        else .error (.assertFail ("Unexpected node: " ++ c.name), s)

/-- Source interface `Field` of outline.ts (the value type of the Outline's
field maps). -/
structure FieldRec where
  name : String
  visibility : String
  final_ : Bool
  static_ : Bool
  deprecated : Bool
deriving DecidableEq, Repr

/-- The mutable data of source class `Outline` (outline.ts) together with
the local variables captured by the closures of its `update` method:
`localType` is the local `type` variable, `type_`/`name`/`visibility`/
`static_`/`final_`/`deprecated`/`fields`/`staticFields` are the object
fields, and `fieldVisibility`/`fieldStatic`/`fieldFinal` are the locals of
the `traverseTypeBody` closure. -/
structure OutlineState where
  localType : Option String
  type_ : String
  name : Option String
  visibility : String
  static_ : Bool
  final_ : Bool
  deprecated : Bool
  fieldVisibility : String
  fieldStatic : Bool
  fieldFinal : Bool
  fields : List (String × FieldRec)
  staticFields : List (String × FieldRec)
deriving DecidableEq, Repr

/-- A default pre-`update` state of the outline object. -/
def OutlineState.start : OutlineState where
  localType := none
  type_ := "class"
  name := none
  visibility := "package"
  static_ := false
  final_ := false
  deprecated := false
  fieldVisibility := "package"
  fieldStatic := false
  fieldFinal := false
  fields := []
  staticFields := []

/-- The `traverseVModifiers` closure of `Outline.update`: routes the class's
own modifiers into `visibility` / `final_` / `static_`. -/
def outlineVModifiers : ModifierCb OutlineState := fun m s =>
  match m with
  | "public" | "protected" | "private" => .ok {s with visibility := m}
  | "final" => .ok {s with final_ := true}
  | "static" => .ok {s with static_ := true}
  | _ => .ok s

/-- The field-modifier closure inside the `traverseTypeBody("class")`
composition of `Outline.update`: routes a member field's modifiers into the
per-body locals `fieldVisibility` / `fieldStatic` / `fieldFinal`.  Nothing
ever copies these into `fields` / `staticFields` (the `declarator` wiring is
commented out in the source). -/
def outlineFieldModifier : ModifierCb OutlineState := fun m s =>
  match m with
  | "public" | "protected" | "private" => .ok {s with fieldVisibility := m}
  | "final" => .ok {s with fieldFinal := true}
  | "static" => .ok {s with fieldStatic := true}
  | _ => .ok s

/-- The `traverseTypeBody("class")` composition of `Outline.update`:
`traverseClassBody({ field: traverseField({ modifiers:
traverseModifiers({ modifier: ... }) }) })`.  The `.map (·.2)` adapters
discard the restored cursor of the nested traversal (cursor-restore
contract). -/
def outlineClassBody (fuel : Nat) : CursorCb OutlineState := fun c s =>
  (traverseClassBody
    { field := some (fun c s =>
        (traverseField
          { modifiers := some (fun c s =>
              (traverseModifiers { modifier := some outlineFieldModifier }
                fuel c s).map (·.2)) }
          fuel c s).map (·.2)) }
    fuel c s).map (·.2)

/-- The `traverseType(ctype)` closure of `Outline.update`: abort with
`throw 0` when a top-level type was already seen, otherwise record the kind
and — for `"class"` only — run the `traverseClass` composition (the other
kinds are TODO stubs in the source). -/
def outlineTypeSlot (src : Nat → Nat → String) (fuel : Nat) (ctype : String) :
    CursorCb OutlineState := fun c s =>
  if s.localType.isSome then .error (.thrownVal, s)
  else
    let s := {s with localType := some ctype}
    if ctype = "class" then
      let s := {s with fieldVisibility := "package", fieldStatic := false,
                       fieldFinal := false}
      (traverseClass
        { modifiers := some (fun c s =>
            (traverseModifiers { modifier := some outlineVModifiers }
              fuel c s).map (·.2)),
          name := some (fun c s =>
            .ok {s with name := some (src c.spanFrom c.spanTo)}),
          body := some (outlineClassBody fuel) }
        fuel c s).map (·.2)
    else .ok s

/-- The `DeclarationsTraverser` configuration `Outline.update` passes to
`traverseDeclarations`: the four type-declaration slots all route to the
`traverseType` closure. -/
def outlineDeclCfg (src : Nat → Nat → String) (fuel : Nat) :
    DeclarationsTraverser OutlineState :=
  { class_ := some (outlineTypeSlot src fuel "class"),
    enum_ := some (outlineTypeSlot src fuel "enum"),
    interface_ := some (outlineTypeSlot src fuel "interface"),
    annotType := some (outlineTypeSlot src fuel "annotation") }

/-- Source `Outline.update` (outline.ts): reset the summary fields, traverse
the top-level declarations with the four type-kind slots, then set
`this.type = type || "class"`. -/
def Outline.update (src : Nat → Nat → String) (fuel : Nat) (c : Cursor)
    (prev : OutlineState) : Except (Err × OutlineState) OutlineState := do
  let s := {prev with localType := none, name := none,
                      visibility := "package", final_ := false,
                      static_ := false, deprecated := false}
  let (_, s) ← traverseDeclarations (outlineDeclCfg src fuel) fuel c s
  .ok {s with type_ := s.localType.getD "class"}

/-- The `Substring` collaborator of outline.ts realised over a Lean string:
`substring(from, to)`. -/
def subData (text : String) : Nat → Nat → String := fun a b =>
  ((text.toList.drop a).take (b - a)).asString

/-! ## Concrete tree builders for witnesses and counterexamples -/

/-- A non-error node with a zero span. -/
def nd (name : String) (children : List Node) : Node :=
  .mk ⟨name, false, 0, 0⟩ children

/-- A non-error node with an explicit span. -/
def ndS (name : String) (a b : Nat) (children : List Node) : Node :=
  .mk ⟨name, false, a, b⟩ children

/-- A parser error node (lezer's `⚠` node type). -/
def errNd : Node := .mk ⟨"⚠", true, 0, 0⟩ []

/-! ## Position bookkeeping for the cursor-restore proofs -/

/-- `c` is positioned on one of the children of the position `c0`: its top
crumb carries `c0`'s info and crumb tail, and the recorded siblings
reassemble exactly `c0`'s child list. -/
def IsChildOf (c c0 : Cursor) : Prop :=
  ∃ b a, c.crumbs = Crumb.mk b c0.cur.info a :: c0.crumbs ∧
    c0.cur.children = b.reverse ++ c.cur :: a

theorem Node.mk_info_children (n : Node) : Node.mk n.info n.children = n := by
  cases n; rfl

theorem parent?_of_isChildOf {c c0 : Cursor} (h : IsChildOf c c0) :
    c.parent? = some c0 := by
  obtain ⟨b, a, hcr, hch⟩ := h
  cases c0 with
  | mk n0 cr0 =>
    cases n0 with
    | mk i0 ch0 =>
      simp only [Node.info, Node.children] at hcr hch
      simp [Cursor.parent?, hcr, ← hch]

theorem parentOr_of_isChildOf {c c0 : Cursor} (h : IsChildOf c c0) :
    c.parentOr = c0 := by
  simp [Cursor.parentOr, parent?_of_isChildOf h]

theorem isChildOf_nextSibling {c c2 c0 : Cursor} (h : IsChildOf c c0)
    (hn : c.nextSibling? = some c2) : IsChildOf c2 c0 := by
  obtain ⟨b, a, hcr, hch⟩ := h
  cases a with
  | nil => simp [Cursor.nextSibling?, hcr] at hn
  | cons x a' =>
    simp [Cursor.nextSibling?, hcr] at hn
    refine ⟨c.cur :: b, a', ?_, ?_⟩
    · simp [← hn]
    · simp [← hn, hch]

theorem isChildOf_nextSiblingOr {c c0 : Cursor} (h : IsChildOf c c0) :
    IsChildOf c.nextSiblingOr c0 := by
  cases hn : c.nextSibling? with
  | none => simpa [Cursor.nextSiblingOr, hn] using h
  | some c2 =>
    simpa [Cursor.nextSiblingOr, hn] using isChildOf_nextSibling h hn

theorem isChildOf_firstChild {c0 c1 : Cursor} (h : c0.firstChild? = some c1) :
    IsChildOf c1 c0 := by
  cases c0 with
  | mk n0 cr0 =>
    cases n0 with
    | mk i0 ch0 =>
      cases ch0 with
      | nil => simp [Cursor.firstChild?] at h
      | cons x xs =>
        simp [Cursor.firstChild?] at h
        exact ⟨[], xs, by simp [← h, Node.info], by simp [← h, Node.children]⟩

theorem mem_children_of_isChildOf {c c0 : Cursor} (h : IsChildOf c c0) :
    c.cur ∈ c0.cur.children := by
  obtain ⟨b, a, _, hch⟩ := h
  simp [hch]

theorem lastChildOr_parentOr {c : Cursor} (h : c.cur.children ≠ []) :
    c.lastChildOr.parentOr = c := by
  cases c with
  | mk n cr =>
    cases n with
    | mk i ch =>
      cases ch with
      | nil => simp [Node.children] at h
      | cons x xs =>
        simp [Cursor.lastChildOr, Cursor.lastChild?, Cursor.parentOr,
          Cursor.parent?]
        exact List.dropLast_append_getLast (by simp)

/-- Restore transfer through the `if (syntaxError(...)) return;` pattern. -/
theorem synErrorCheck_restore {e : Option (ErrorCb σ)} {c : Cursor} {s : σ}
    {k : σ → Exc σ (Cursor × σ)} {c' : Cursor} {s' : σ} {c0 : Cursor}
    (hc : c.parentOr = c0)
    (hk : ∀ s c' s', k s = .ok (c', s') → c' = c0)
    (h : synErrorCheck e c s k = .ok (c', s')) : c' = c0 := by
  simp only [synErrorCheck, synError] at h
  by_cases he : c.isError
  · simp only [he, if_true] at h
    cases hr : runErrorCb e .SyntaxError c s with
    | error es => simp [hr, Except.map, Bind.bind, Except.bind] at h
    | ok s2 =>
      simp [hr, Except.map, Bind.bind, Except.bind] at h
      rw [← h.1, hc]
  · simp only [he, if_false] at h
    simp only [Bind.bind, Except.bind] at h
    exact hk _ _ _ h

theorem excBind_ok {α β : Type} {x : Exc σ α} {f : α → Exc σ β} {b : β} :
    (Bind.bind x f = Except.ok b) ↔ ∃ a, x = .ok a ∧ f a = .ok b := by
  cases x <;> simp [Bind.bind, Except.bind]

theorem synError_ok {e : Option (ErrorCb σ)} {c : Cursor} {s : σ}
    {r : Bool × Cursor × σ} (h : synError e c s = .ok r) :
    (r.1 = true ∧ r.2.1 = c.parentOr) ∨ (r.1 = false ∧ r.2.1 = c ∧ r.2.2 = s) := by
  unfold synError at h
  by_cases he : c.isError
  · simp only [he, if_true] at h
    cases hr : runErrorCb e .SyntaxError c s with
    | error es => simp [hr, Except.map] at h
    | ok s2 =>
      simp [hr, Except.map] at h
      left
      simp [← h]
  · simp only [he, if_false] at h
    right
    cases h
    simp

/-- Control-flow core of the sibling loops: the `while (cursor.nextSibling())`
continuation restores the parent once the loop body is known to restore. -/
theorem classNext_restore {t : ClassTraverser σ} {c0 : Cursor} {fuel : Nat}
    (ih : ∀ (c : Cursor) (s : σ) c' s', IsChildOf c c0 →
      traverseClassLoop t fuel c s = .ok (c', s') → c' = c0)
    {c : Cursor} {s : σ} {c' : Cursor} {s' : σ} (hc : IsChildOf c c0)
    (h : (match c.nextSibling? with
          | some c2 => traverseClassLoop t fuel c2 s
          | none => .ok (c.parentOr, s)) = .ok (c', s')) : c' = c0 := by
  cases hn : c.nextSibling? with
  | some c2 =>
    rw [hn] at h
    exact ih c2 s c' s' (isChildOf_nextSibling hc hn) h
  | none =>
    rw [hn] at h
    cases h
    exact parentOr_of_isChildOf hc

theorem traverseClassLoop_restore (t : ClassTraverser σ) (c0 : Cursor)
    (hw : ∀ n ∈ c0.cur.children,
      n.name = "Superclass" ∨ n.name = "SuperInterfaces" → n.children ≠ []) :
    ∀ fuel (c : Cursor) (s : σ) c' s', IsChildOf c c0 →
      traverseClassLoop t fuel c s = .ok (c', s') → c' = c0 := by
  intro fuel
  induction fuel with
  | zero =>
    intro c s c' s' _ h
    simp [traverseClassLoop] at h
  | succ fuel ih =>
    intro c s c' s' hc h
    simp only [traverseClassLoop] at h
    split at h
    · rw [excBind_ok] at h
      obtain ⟨s2, _, h⟩ := h
      exact classNext_restore ih hc h
    · exact classNext_restore ih hc h
    · rw [excBind_ok] at h
      obtain ⟨s2, _, h⟩ := h
      exact classNext_restore ih hc h
    · rw [excBind_ok] at h
      obtain ⟨s2, _, h⟩ := h
      exact classNext_restore ih hc h
    · -- Superclass
      rw [excBind_ok] at h
      obtain ⟨s2, _, h⟩ := h
      rw [lastChildOr_parentOr
        (hw c.cur (mem_children_of_isChildOf hc) (Or.inl (by assumption)))] at h
      exact classNext_restore ih hc h
    · -- SuperInterfaces
      rw [excBind_ok] at h
      obtain ⟨s2, _, h⟩ := h
      rw [lastChildOr_parentOr
        (hw c.cur (mem_children_of_isChildOf hc) (Or.inr (by assumption)))] at h
      exact classNext_restore ih hc h
    · rw [excBind_ok] at h
      obtain ⟨s2, _, h⟩ := h
      exact classNext_restore ih hc h
    · -- default: error node early return or thrown UnexpectedNodeError
      rw [excBind_ok] at h
      obtain ⟨⟨wasErr, cp, s2⟩, hsyn, h⟩ := h
      rcases synError_ok hsyn with ⟨hw1, hw2⟩ | ⟨hw1, hw2, _⟩ <;> subst hw1 <;>
        simp at h
      obtain ⟨h1, _⟩ := h
      simp at hw2
      rw [← h1, hw2]
      exact parentOr_of_isChildOf hc

theorem isChildOf_firstChildOr {c : Cursor} (h : c.cur.children ≠ []) :
    IsChildOf c.firstChildOr c := by
  cases hc : c.cur with
  | mk i ch =>
    cases ch with
    | nil => rw [hc] at h; simp [Node.children] at h
    | cons x xs =>
      have : c.firstChild? = some ⟨x, ⟨[], i, xs⟩ :: c.crumbs⟩ := by
        simp [Cursor.firstChild?, hc]
      simpa [Cursor.firstChildOr, this] using isChildOf_firstChild this

theorem firstChildOr_parentOr {c : Cursor} (h : c.cur.children ≠ []) :
    c.firstChildOr.parentOr = c :=
  parentOr_of_isChildOf (isChildOf_firstChildOr h)

theorem traverseAnnot_restore {t : AnnotTraverser σ} {c : Cursor} {s : σ}
    {c' : Cursor} {s' : σ}
    (hname : c.name = "MarkerAnnotation" ∨ c.name = "Annotation")
    (hch : c.cur.children ≠ [])
    (h : traverseAnnot t c s = .ok (c', s')) : c' = c := by
  unfold traverseAnnot at h
  rcases hname with hn | hn <;> rw [hn] at h <;>
    simp only [String.reduceEq] at h <;> rw [excBind_ok] at h
  · obtain ⟨s2, _, h⟩ := h
    cases h
    exact firstChildOr_parentOr hch
  · obtain ⟨s2, _, h⟩ := h
    rw [excBind_ok] at h
    obtain ⟨s3, _, h⟩ := h
    cases h
    exact parentOr_of_isChildOf (isChildOf_nextSiblingOr (isChildOf_firstChildOr hch))

theorem classBodyNext_restore {t : ClassBodyTraverser σ} {c0 : Cursor}
    {fuel : Nat}
    (ih : ∀ (c : Cursor) (s : σ) c' s', IsChildOf c c0 →
      traverseClassBodyLoop t fuel c s = .ok (c', s') → c' = c0)
    {c : Cursor} {s : σ} {c' : Cursor} {s' : σ} (hc : IsChildOf c c0)
    (h : (match c.nextSibling? with
          | some c2 => traverseClassBodyLoop t fuel c2 s
          | none => .error (.assertFail "Unreachable code", s)) = .ok (c', s')) :
    c' = c0 := by
  cases hn : c.nextSibling? with
  | some c2 =>
    rw [hn] at h
    exact ih c2 s c' s' (isChildOf_nextSibling hc hn) h
  | none => rw [hn] at h; cases h

theorem traverseClassBodyLoop_restore (t : ClassBodyTraverser σ) (c0 : Cursor)
    (hw : ∀ n ∈ c0.cur.children, n.name = "StaticInitializer" →
      n.children ≠ []) :
    ∀ fuel (c : Cursor) (s : σ) c' s', IsChildOf c c0 →
      traverseClassBodyLoop t fuel c s = .ok (c', s') → c' = c0 := by
  intro fuel
  induction fuel with
  | zero =>
    intro c s c' s' _ h
    simp [traverseClassBodyLoop] at h
  | succ fuel ih =>
    intro c s c' s' hc h
    simp only [traverseClassBodyLoop] at h
    split at h
    · exact classBodyNext_restore ih hc h
    · cases h; exact parentOr_of_isChildOf hc
    · rw [excBind_ok] at h
      obtain ⟨s2, _, h⟩ := h
      exact classBodyNext_restore ih hc h
    · rw [excBind_ok] at h
      obtain ⟨s2, _, h⟩ := h
      exact classBodyNext_restore ih hc h
    · rw [excBind_ok] at h
      obtain ⟨s2, _, h⟩ := h
      exact classBodyNext_restore ih hc h
    · rw [excBind_ok] at h
      obtain ⟨s2, _, h⟩ := h
      exact classBodyNext_restore ih hc h
    · rw [excBind_ok] at h
      obtain ⟨s2, _, h⟩ := h
      exact classBodyNext_restore ih hc h
    · rw [excBind_ok] at h
      obtain ⟨s2, _, h⟩ := h
      exact classBodyNext_restore ih hc h
    · rw [excBind_ok] at h
      obtain ⟨s2, _, h⟩ := h
      exact classBodyNext_restore ih hc h
    · -- StaticInitializer
      rw [excBind_ok] at h
      obtain ⟨s2, _, h⟩ := h
      rw [lastChildOr_parentOr
        (hw c.cur (mem_children_of_isChildOf hc) (by assumption))] at h
      exact classBodyNext_restore ih hc h
    · rw [excBind_ok] at h
      obtain ⟨s2, _, h⟩ := h
      exact classBodyNext_restore ih hc h
    · rw [excBind_ok] at h
      obtain ⟨⟨wasErr, cp, s2⟩, hsyn, h⟩ := h
      rcases synError_ok hsyn with ⟨hw1, hw2⟩ | ⟨hw1, hw2, _⟩ <;> subst hw1 <;>
        simp at h
      obtain ⟨h1, _⟩ := h
      simp at hw2
      rw [← h1, hw2]
      exact parentOr_of_isChildOf hc

theorem traverseClassBody_restore {t : ClassBodyTraverser σ} {fuel : Nat}
    {c : Cursor} {s : σ} {c' : Cursor} {s' : σ}
    (hname : c.name = "ClassBody") (hch : c.cur.children ≠ [])
    (hw : ∀ n ∈ c.cur.children, n.name = "StaticInitializer" →
      n.children ≠ [])
    (h : traverseClassBody t fuel c s = .ok (c', s')) : c' = c := by
  unfold traverseClassBody at h
  rw [if_pos hname] at h
  have hc1 := isChildOf_firstChildOr hch
  refine synErrorCheck_restore (parentOr_of_isChildOf hc1) ?_ h
  intro s2 c'' s'' h2
  split at h2
  · exact traverseClassBodyLoop_restore t c hw fuel _ _ _ _
      (isChildOf_nextSiblingOr hc1) h2
  · cases h2

theorem methodTPLoop_isChild (t : MethodTraverser σ) (c0 : Cursor) :
    ∀ fuel (c : Cursor) (s : σ) c' s', IsChildOf c c0 →
      methodTPLoop t fuel c s = .ok (c', s') → IsChildOf c' c0 := by
  intro fuel
  induction fuel with
  | zero =>
    intro c s c' s' _ h
    simp [methodTPLoop] at h
  | succ fuel ih =>
    intro c s c' s' hc h
    simp only [methodTPLoop] at h
    split at h
    · cases h
      exact hc
    · rename_i c2 hn
      have hc2 := isChildOf_nextSibling hc hn
      split at h
      · split at h
        · rw [excBind_ok] at h
          obtain ⟨s2, _, h⟩ := h
          exact ih c2 s2 c' s' hc2 h
        · exact ih c2 s c' s' hc2 h
      · split at h
        · rw [excBind_ok] at h
          obtain ⟨s2, _, h⟩ := h
          exact ih c2 s2 c' s' hc2 h
        · exact ih c2 s c' s' hc2 h
      · cases h
        exact hc2

theorem methodDimLoop_isChild (t : MethodTraverser σ) (hasP : Bool)
    (c0 : Cursor) :
    ∀ fuel (c : Cursor) (s : σ) c' s', IsChildOf c c0 →
      methodDimLoop t hasP fuel c s = .ok (c', s') → IsChildOf c' c0 := by
  intro fuel
  induction fuel with
  | zero =>
    intro c s c' s' _ h
    simp [methodDimLoop] at h
  | succ fuel ih =>
    intro c s c' s' hc h
    simp only [methodDimLoop] at h
    split at h
    · cases h
      exact hc
    · rename_i c2 hn
      have hc2 := isChildOf_nextSibling hc hn
      by_cases hd : c2.name = "Dimension"
      · rw [if_pos hd] at h
        cases hasP with
        | false =>
          rw [if_neg (by simp)] at h
          exact ih c2 s c' s' hc2 h
        | true =>
          rw [if_pos rfl] at h
          split at h
          · rw [excBind_ok] at h
            obtain ⟨s2, _, h⟩ := h
            exact ih c2 s2 c' s' hc2 h
          · cases h
      · rw [if_neg hd] at h
        cases h
        exact hc2

theorem methodTail_restore {t : MethodTraverser σ} {c : Cursor} {s : σ}
    {c' : Cursor} {s' : σ} {c0 : Cursor} (hc : IsChildOf c c0)
    (h : methodTail t c s = .ok (c', s')) : c' = c0 := by
  unfold methodTail at h
  split at h
  · rw [excBind_ok] at h
    obtain ⟨s2, _, h⟩ := h
    cases h
    exact parentOr_of_isChildOf hc
  · rw [excBind_ok] at h
    obtain ⟨s2, _, h⟩ := h
    cases h
    exact parentOr_of_isChildOf hc
  · cases h
    exact parentOr_of_isChildOf hc

theorem methodFromReturnType_restore {t : MethodTraverser σ} {fuel : Nat}
    {c3 : Cursor} {s : σ} {c' : Cursor} {s' : σ} {c0 : Cursor}
    (hc3 : IsChildOf c3 c0)
    (h : methodFromReturnType t fuel c3 s = .ok (c', s')) : c' = c0 := by
  unfold methodFromReturnType at h
  refine synErrorCheck_restore (parentOr_of_isChildOf hc3) ?_ h
  intro s4 c4' s4' h4
  rw [excBind_ok] at h4
  obtain ⟨s5, _, h4⟩ := h4
  have hc4 : IsChildOf c3.nextSiblingOr c0 := isChildOf_nextSiblingOr hc3
  refine synErrorCheck_restore (parentOr_of_isChildOf hc4) ?_ h4
  intro s6 c5' s5' h5
  rw [excBind_ok] at h5
  obtain ⟨s7, _, h5⟩ := h5
  have hc5 : IsChildOf c3.nextSiblingOr.nextSiblingOr c0 :=
    isChildOf_nextSiblingOr hc4
  refine synErrorCheck_restore (parentOr_of_isChildOf hc5) ?_ h5
  intro s8 c6' s6' h6
  rw [excBind_ok] at h6
  obtain ⟨s9, _, h6⟩ := h6
  rw [excBind_ok] at h6
  obtain ⟨⟨c6, s10⟩, h6a, h6⟩ := h6
  have hc6 : IsChildOf c6 c0 :=
    methodDimLoop_isChild t _ c0 fuel _ s9 c6 s10 hc5 h6a
  refine synErrorCheck_restore (parentOr_of_isChildOf hc6) ?_ h6
  intro s11 c7' s7' h7
  split at h7
  · rw [excBind_ok] at h7
    obtain ⟨s12, _, h7⟩ := h7
    have hc7 : IsChildOf c6.nextSiblingOr c0 := isChildOf_nextSiblingOr hc6
    refine synErrorCheck_restore (parentOr_of_isChildOf hc7) ?_ h7
    intro s13 c8' s8' h8
    exact methodTail_restore hc7 h8
  · exact methodTail_restore hc6 h7

theorem methodFromTypeParams_restore {t : MethodTraverser σ} {fuel : Nat}
    {c2 : Cursor} {s : σ} {c' : Cursor} {s' : σ} {c0 : Cursor}
    (hc2 : IsChildOf c2 c0)
    (h : methodFromTypeParams t fuel c2 s = .ok (c', s')) : c' = c0 := by
  unfold methodFromTypeParams at h
  split at h
  · rw [excBind_ok] at h
    obtain ⟨s2, _, h⟩ := h
    rw [excBind_ok] at h
    obtain ⟨⟨c3, s3⟩, h3, h⟩ := h
    exact methodFromReturnType_restore
      (methodTPLoop_isChild t c0 fuel c2 s2 c3 s3 hc2 h3) h
  · exact methodFromReturnType_restore hc2 h

theorem traverseMethod_restore {t : MethodTraverser σ} {fuel : Nat}
    {c : Cursor} {s : σ} {c' : Cursor} {s' : σ}
    (hname : c.name = "MethodDeclaration") (hch : c.cur.children ≠ [])
    (h : traverseMethod t fuel c s = .ok (c', s')) : c' = c := by
  unfold traverseMethod at h
  rw [if_pos hname] at h
  have hc1 := isChildOf_firstChildOr hch
  simp only [] at h
  split at h
  · rw [excBind_ok] at h
    obtain ⟨s2, _, h⟩ := h
    exact methodFromTypeParams_restore (isChildOf_nextSiblingOr hc1) h
  · exact methodFromTypeParams_restore hc1 h

theorem traverseFieldLoop_restore (t : FieldTraverser σ) (c0 : Cursor) :
    ∀ fuel (c : Cursor) (s : σ) c' s', IsChildOf c c0 →
      traverseFieldLoop t fuel c s = .ok (c', s') → c' = c0 := by
  intro fuel
  induction fuel with
  | zero =>
    intro c s c' s' _ h
    simp [traverseFieldLoop] at h
  | succ fuel ih =>
    intro c s c' s' hc h
    simp only [traverseFieldLoop] at h
    refine synErrorCheck_restore (parentOr_of_isChildOf hc) ?_ h
    intro s2 c'' s'' h2
    rw [excBind_ok] at h2
    obtain ⟨s3, _, h2⟩ := h2
    split at h2
    · rename_i c2 hn
      have hc2 := isChildOf_nextSibling hc hn
      split at h2
      · cases h2
        exact parentOr_of_isChildOf hc2
      · exact ih c2 s3 c'' s'' hc2 h2
    · cases h2
      exact parentOr_of_isChildOf hc

theorem traverseField_restore {t : FieldTraverser σ} {fuel : Nat}
    {c : Cursor} {s : σ} {c' : Cursor} {s' : σ}
    (hname : c.name = "FieldDeclaration") (hch : c.cur.children ≠ [])
    (h : traverseField t fuel c s = .ok (c', s')) : c' = c := by
  unfold traverseField at h
  rw [if_pos hname] at h
  have hc1 := isChildOf_firstChildOr hch
  refine synErrorCheck_restore (parentOr_of_isChildOf hc1) ?_ h
  intro s2 c'' s'' h2
  simp only [] at h2
  split at h2
  · rw [excBind_ok] at h2
    obtain ⟨s3, _, h2⟩ := h2
    have hc2 : IsChildOf c.firstChildOr.nextSiblingOr c :=
      isChildOf_nextSiblingOr hc1
    refine synErrorCheck_restore (parentOr_of_isChildOf hc2) ?_ h2
    intro s4 c3 s3' h3
    rw [excBind_ok] at h3
    obtain ⟨s5, _, h3⟩ := h3
    exact traverseFieldLoop_restore t c fuel _ s5 c3 s3'
      (isChildOf_nextSiblingOr hc2) h3
  · rw [excBind_ok] at h2
    obtain ⟨s3, _, h2⟩ := h2
    exact traverseFieldLoop_restore t c fuel _ s3 c'' s''
      (isChildOf_nextSiblingOr hc1) h2

theorem traverseClass_restore {t : ClassTraverser σ} {fuel : Nat}
    {c : Cursor} {s : σ} {c' : Cursor} {s' : σ}
    (hname : c.name = "ClassDeclaration") (hch : c.cur.children ≠ [])
    (hw : ∀ n ∈ c.cur.children,
      n.name = "Superclass" ∨ n.name = "SuperInterfaces" → n.children ≠ [])
    (h : traverseClass t fuel c s = .ok (c', s')) : c' = c := by
  unfold traverseClass at h
  rw [if_pos hname] at h
  exact traverseClassLoop_restore t c hw fuel _ s c' s'
    (isChildOf_firstChildOr hch) h

/-! ## Claim C1 -/

/-- Example inputs exercising the five traversal functions of claim C1. -/
def annotEx : Node := nd "MarkerAnnotation" [nd "Identifier" []]

def classEx : Node := nd "ClassDeclaration"
  [nd "Modifiers" [nd "public" []],
   nd "class" [],
   nd "Definition" [],
   nd "Superclass" [nd "extends" [], nd "TypeName" []],
   nd "ClassBody" [nd "\x7b" [], nd "\x7d" []]]

def classBodyEx : Node := nd "ClassBody"
  [nd "\x7b" [],
   nd "FieldDeclaration" [nd "int" [],
     nd "VariableDeclarator" [nd "Definition" []], nd ";" []],
   nd "StaticInitializer" [nd "static" [], nd "Block" []],
   nd "\x7d" []]

def methodEx : Node := nd "MethodDeclaration"
  [nd "Modifiers" [nd "public" []],
   nd "int" [], nd "Definition" [], nd "FormalParameters" [],
   nd "Throws" [], nd "Block" []]

def fieldEx : Node := nd "FieldDeclaration"
  [nd "Modifiers" [nd "private" []],
   nd "int" [],
   nd "VariableDeclarator" [nd "Definition" []],
   nd ";" []]

/-- **C1** (confirmed).  For every non-inline traversal function named by the
claim — `traverseAnnotation`, `traverseClass`, `traverseClassBody`,
`traverseMethod`, `traverseField` — when the function is invoked on a node of
the matching kind (a well-formed instance of the construct: the node has its
children, and `Superclass` / `SuperInterfaces` / `StaticInitializer` wrapper
children are themselves non-empty), every normally-returning exit path —
including the early returns taken when a syntax-error node is encountered —
leaves the cursor exactly where it was when the function was entered. -/
theorem cursor_symmetry_traversals :
    (∀ (σ : Type) (t : AnnotTraverser σ) (c : Cursor) (s : σ) c' s',
      (c.name = "MarkerAnnotation" ∨ c.name = "Annotation") →
      c.cur.children ≠ [] →
      traverseAnnot t c s = .ok (c', s') → c' = c) ∧
    (∀ (σ : Type) (t : ClassTraverser σ) (fuel : Nat) (c : Cursor) (s : σ)
        c' s',
      c.name = "ClassDeclaration" → c.cur.children ≠ [] →
      (∀ n ∈ c.cur.children,
        n.name = "Superclass" ∨ n.name = "SuperInterfaces" →
        n.children ≠ []) →
      traverseClass t fuel c s = .ok (c', s') → c' = c) ∧
    (∀ (σ : Type) (t : ClassBodyTraverser σ) (fuel : Nat) (c : Cursor) (s : σ)
        c' s',
      c.name = "ClassBody" → c.cur.children ≠ [] →
      (∀ n ∈ c.cur.children, n.name = "StaticInitializer" →
        n.children ≠ []) →
      traverseClassBody t fuel c s = .ok (c', s') → c' = c) ∧
    (∀ (σ : Type) (t : MethodTraverser σ) (fuel : Nat) (c : Cursor) (s : σ)
        c' s',
      c.name = "MethodDeclaration" → c.cur.children ≠ [] →
      traverseMethod t fuel c s = .ok (c', s') → c' = c) ∧
    (∀ (σ : Type) (t : FieldTraverser σ) (fuel : Nat) (c : Cursor) (s : σ)
        c' s',
      c.name = "FieldDeclaration" → c.cur.children ≠ [] →
      traverseField t fuel c s = .ok (c', s') → c' = c) := by
  refine ⟨?_, ?_, ?_, ?_, ?_⟩
  · intro σ t c s c' s' hname hch h
    exact traverseAnnot_restore hname hch h
  · intro σ t fuel c s c' s' hname hch hw h
    exact traverseClass_restore hname hch hw h
  · intro σ t fuel c s c' s' hname hch hw h
    exact traverseClassBody_restore hname hch hw h
  · intro σ t fuel c s c' s' hname hch h
    exact traverseMethod_restore hname hch h
  · intro σ t fuel c s c' s' hname hch h
    exact traverseField_restore hname hch h

/-- Witness for C1: each conjunct applied at a concrete well-formed tree of
the matching kind, with all slots of the traverser populated by no-op
callbacks where convenient (`{}` leaves every slot undefined, which the
claim allows since it quantifies over configurations). -/
theorem cursor_symmetry_traversals_witness :
    (((Cursor.root annotEx).name = "MarkerAnnotation" ∨
        (Cursor.root annotEx).name = "Annotation") ∧
      (Cursor.root annotEx).cur.children ≠ [] ∧
      Cursor.root annotEx = Cursor.root annotEx) ∧
    ((Cursor.root classEx).name = "ClassDeclaration" ∧
      (Cursor.root classEx).cur.children ≠ [] ∧
      Cursor.root classEx = Cursor.root classEx) ∧
    ((Cursor.root classBodyEx).name = "ClassBody" ∧
      (Cursor.root classBodyEx).cur.children ≠ [] ∧
      Cursor.root classBodyEx = Cursor.root classBodyEx) ∧
    ((Cursor.root methodEx).name = "MethodDeclaration" ∧
      (Cursor.root methodEx).cur.children ≠ [] ∧
      Cursor.root methodEx = Cursor.root methodEx) ∧
    ((Cursor.root fieldEx).name = "FieldDeclaration" ∧
      (Cursor.root fieldEx).cur.children ≠ [] ∧
      Cursor.root fieldEx = Cursor.root fieldEx) := by
  refine ⟨⟨Or.inl rfl, ?_, ?_⟩, ⟨rfl, ?_, ?_⟩, ⟨rfl, ?_, ?_⟩,
    ⟨rfl, ?_, ?_⟩, ⟨rfl, ?_, ?_⟩⟩
  · exact List.cons_ne_nil _ _
  · exact cursor_symmetry_traversals.1 Unit {} (Cursor.root annotEx) () _ ()
      (Or.inl rfl) (List.cons_ne_nil _ _) rfl
  · exact List.cons_ne_nil _ _
  · exact cursor_symmetry_traversals.2.1 Unit {} 10 (Cursor.root classEx) ()
      _ () rfl (List.cons_ne_nil _ _)
      (by
        intro n hn h2
        simp [classEx, nd, Cursor.root, Node.children] at hn
        rcases hn with h | h | h | h | h <;> subst h <;>
          simp_all [nd, Node.name, Node.info, Node.children]) rfl
  · exact List.cons_ne_nil _ _
  · exact cursor_symmetry_traversals.2.2.1 Unit {} 10
      (Cursor.root classBodyEx) () _ () rfl (List.cons_ne_nil _ _)
      (by
        intro n hn h2
        simp [classBodyEx, nd, Cursor.root, Node.children] at hn
        rcases hn with h | h | h | h <;> subst h <;>
          simp_all [nd, Node.name, Node.info, Node.children]) rfl
  · exact List.cons_ne_nil _ _
  · exact cursor_symmetry_traversals.2.2.2.1 Unit {} 10
      (Cursor.root methodEx) () _ () rfl (List.cons_ne_nil _ _) rfl
  · exact List.cons_ne_nil _ _
  · exact cursor_symmetry_traversals.2.2.2.2 Unit {} 10
      (Cursor.root fieldEx) () _ () rfl (List.cons_ne_nil _ _) rfl

/-! ## Claim C2 -/

/-- Callback counters for the field / variable-declarator composition. -/
structure C2Counts where
  decl : Nat := 0
  nameCnt : Nat := 0
  init : Nat := 0
  noInit : Nat := 0
deriving DecidableEq, Repr

/-- The tree of `int a, b = 2, c;`: a `FieldDeclaration` with the base type
and three `VariableDeclarator` children, the middle one carrying an
initializer, terminated by `";"`. -/
def fieldABC : Node := nd "FieldDeclaration"
  [nd "int" [],
   nd "VariableDeclarator" [nd "Definition" []],
   nd "VariableDeclarator"
     [nd "Definition" [], nd "=" [], nd "DecimalIntegerLiteral" []],
   nd "VariableDeclarator" [nd "Definition" []],
   nd ";" []]

/-- The C2 composition: `traverseField` whose `declarator` slot is
`traverseVariableDeclarator` with counting `name` / `initializer` /
`noInitializer` callbacks. -/
def c2FieldCfg (fuel : Nat) : FieldTraverser C2Counts :=
  { declarator := some (fun c s =>
      (traverseVariableDeclarator
        { name := some (fun _ s => .ok {s with nameCnt := s.nameCnt + 1}),
          initializer := some (fun _ s => .ok {s with init := s.init + 1}),
          noInitializer := some (fun s => .ok {s with noInit := s.noInit + 1}) }
        fuel c {s with decl := s.decl + 1}).map (·.2)) }

/-- **C2** (code bug).  On `int a, b = 2, c;` the declarator callback fires
3 times and the initializer callback once, as the claim states, but the
`noInitializer` callback fires 0 times instead of the claimed once per
initializer-less declarator (twice here): `traverseVariableDeclarator`
declares the slot and documents it as "Called if there is no initializer for
this variable", yet its body contains no call of it. -/
theorem field_noInitializer_never_fired :
    traverseField (c2FieldCfg 20) 20 (Cursor.root fieldABC) {} =
      .ok (Cursor.root fieldABC,
        { decl := 3, nameCnt := 3, init := 1, noInit := 0 }) := rfl

/-! ## Claim C3 -/

/-- The tree of `int f()[];`: a method with one trailing `Dimension` after
the parameter list and no body. -/
def methodFDim : Node := nd "MethodDeclaration"
  [nd "int" [], nd "Definition" [], nd "FormalParameters" [],
   nd "Dimension" [], nd ";" []]

/-- **C3** (code bug).  The `extraReturnDim` forwarding in `traverseMethod`
is gated on the wrong slot: the source computes
`hasP = traverser.parameters !== undefined` and then runs
`traverser.extraReturnDim!(...)`.  Consequently (first conjunct) with
`extraReturnDim` defined but `parameters` undefined the callback never fires
on the trailing `Dimension` (the counter stays 0 where the claim requires
one call), and (second conjunct) with `parameters` defined but
`extraReturnDim` undefined the non-null-asserted call hits an undefined slot
(a TypeScript runtime `TypeError`). -/
theorem method_extraReturnDim_wrong_gate :
    (traverseMethod { extraReturnDim := some (fun _ s => .ok (s + 1)) } 20
      (Cursor.root methodFDim) (0 : Nat) = .ok (Cursor.root methodFDim, 0)) ∧
    (traverseMethod { parameters := some (fun _ s => .ok s) } 20
      (Cursor.root methodFDim) (0 : Nat) =
      .error (.undefinedCall "extraReturnDim", 0)) := ⟨rfl, rfl⟩

/-! ## Claim C9 -/

/-- The tree of the import name `a.b`: one `ScopedIdentifier` with two
`Identifier` children separated by `"."`. -/
def nameAB : Node := ndS "ScopedIdentifier" 0 3
  [ndS "Identifier" 0 1 [], ndS "." 1 2 [], ndS "Identifier" 2 3 []]

/-- The tree of the import name `a.b.c.d`: left-nested `ScopedIdentifier`s. -/
def nameABCD : Node := ndS "ScopedIdentifier" 0 7
  [ndS "ScopedIdentifier" 0 5
    [ndS "ScopedIdentifier" 0 3
      [ndS "Identifier" 0 1 [], ndS "." 1 2 [], ndS "Identifier" 2 3 []],
     ndS "." 3 4 [], ndS "Identifier" 4 5 []],
   ndS "." 5 6 [], ndS "Identifier" 6 7 []]

/-- A `traverseName` configuration recording every `path` / `identifier`
invocation with the node kind and position it was invoked on. -/
def nameRecCfg : NameTraverser (List (String × String × Nat)) :=
  { path := some (fun c s => .ok (s ++ [("path", c.name, c.spanFrom)])),
    identifier := fun c s => .ok (s ++ [("identifier", c.name, c.spanFrom)]) }

/-- **C9** (code bug).  With the `path` slot defined, `traverseName` on the
two-segment name `a.b` never invokes `path` (the claim requires exactly one
invocation, on `a`), and on the four-segment name `a.b.c.d` it invokes
`path` four times for the three leading segments — one of those invocations
with the cursor on a composite `ScopedIdentifier` node (`a.b`, position 0)
instead of an identifier.  Only the three-segment case matches the
documented once-per-segment behaviour. -/
theorem name_path_segment_miscount :
    (traverseName nameRecCfg 20 (Cursor.root nameAB) [] =
      .ok (Cursor.root nameAB, [("identifier", "Identifier", 2)])) ∧
    (traverseName nameRecCfg 20 (Cursor.root nameABCD) [] =
      .ok (Cursor.root nameABCD,
        [("path", "Identifier", 0), ("path", "Identifier", 2),
         ("path", "ScopedIdentifier", 0), ("path", "Identifier", 4),
         ("identifier", "Identifier", 6)])) := ⟨rfl, rfl⟩

/-! ## Claim C4 -/

/-- A class-body traverser that records each visited field/method member and
each `$error` invocation with the position of the node it was invoked on. -/
def cbRecCfg : ClassBodyTraverser (List (String × Nat)) :=
  { field := some (fun c s => .ok (s ++ [("field", c.spanFrom)])),
    method := some (fun c s => .ok (s ++ [("method", c.spanFrom)])),
    errorCb := some (fun _ c s => .ok (s ++ [("error", c.spanFrom)])) }

/-- The record `cbRecCfg` produces for one member declaration. -/
def memberEvent (n : Node) : List (String × Nat) :=
  if n.name = "FieldDeclaration" then [("field", n.info.spanFrom)]
  else [("method", n.info.spanFrom)]

/-- A class body `{ int a; ⚠ int b; }`: field at position 10, an error node,
field at position 30. -/
def cbTree : Node := nd "ClassBody"
  [nd "\x7b" [],
   ndS "FieldDeclaration" 10 20
     [nd "int" [], nd "VariableDeclarator" [nd "Definition" []], nd ";" []],
   errNd,
   ndS "FieldDeclaration" 30 40
     [nd "int" [], nd "VariableDeclarator" [nd "Definition" []], nd ";" []],
   nd "\x7d" []]

/-- **C4 counterexample**.  On a class body whose members are a field at
position 10, a syntax-error node, and a field at position 30, the `$error`
callback fires exactly once and the field before the error is visited, but
the recorded trace contains no event for the field at position 30: the
sibling declarations after the erroneous node are NOT visited, refuting the
claim as stated. -/
theorem classBody_error_stops_siblings_after :
    traverseClassBody cbRecCfg 20 (Cursor.root cbTree) [] =
      .ok (Cursor.root cbTree, [("field", 10), ("error", 0)]) := rfl

theorem cbLoop_run (i0 : NodeInfo) (cs : List Crumb) (e : Node)
    (hename : e.name = "⚠") (he : e.isError = true) (post : List Node) :
    ∀ (pre : List Node), (∀ n ∈ pre,
      n.name = "FieldDeclaration" ∨ n.name = "MethodDeclaration") →
    ∀ (cur : Node) (after : List Node), cur :: after = pre ++ e :: post →
    ∀ (fuel : Nat), pre.length < fuel →
    ∀ (b : List Node) (s : List (String × Nat)),
    traverseClassBodyLoop cbRecCfg fuel ⟨cur, ⟨b, i0, after⟩ :: cs⟩ s =
      .ok (⟨Node.mk i0 (b.reverse ++ cur :: after), cs⟩,
           s ++ pre.flatMap memberEvent ++ [("error", e.info.spanFrom)]) := by
  intro pre
  induction pre with
  | nil =>
    intro _ cur after hsplit fuel hf b s
    cases fuel with
    | zero => simp at hf
    | succ fuel =>
      simp only [List.nil_append] at hsplit
      injection hsplit with h1 h2
      subst h1
      subst h2
      have hn : cur.info.name = "⚠" := hename
      have hie : cur.info.isError = true := he
      simp [traverseClassBodyLoop, Cursor.name, hn, String.reduceEq, synError,
        Cursor.isError, hie, runErrorCb, cbRecCfg, Except.map, Cursor.parentOr,
        Cursor.parent?, Cursor.spanFrom, Bind.bind, Except.bind]
  | cons x pre ih =>
    intro hpre cur after hsplit fuel hf b s
    cases fuel with
    | zero => simp at hf
    | succ fuel =>
      simp only [List.cons_append] at hsplit
      injection hsplit with h1 h2
      subst h1
      cases hafter : pre ++ e :: post with
      | nil => simp at hafter
      | cons y rest =>
        rw [hafter] at h2
        subst h2
        have hme := hpre cur (List.mem_cons_self _ _)
        have hrec := ih (fun n hn => hpre n (List.mem_cons_of_mem _ hn))
          y rest hafter.symm fuel
          (by simpa using Nat.lt_of_succ_lt_succ (by simpa using hf))
          (cur :: b) (s ++ memberEvent cur)
        simp only [cbRecCfg, Cursor.spanFrom] at hrec
        rcases hme with hx | hx
        · have hn : cur.info.name = "FieldDeclaration" := hx
          have hmev : memberEvent cur = [("field", cur.info.spanFrom)] := by
            simp [memberEvent, Node.name, hn]
          rw [hmev] at hrec
          simp only [traverseClassBodyLoop, Cursor.name, hn, String.reduceEq,
            runOpt, cbRecCfg, Bind.bind, Except.bind, Cursor.spanFrom]
          rw [show Cursor.nextSibling? ⟨cur, ⟨b, i0, y :: rest⟩ :: cs⟩ =
            some ⟨y, ⟨cur :: b, i0, rest⟩ :: cs⟩ from rfl]
          exact hrec.trans (by simp [hmev, List.append_assoc])
        · have hn : cur.info.name = "MethodDeclaration" := hx
          have hmev : memberEvent cur = [("method", cur.info.spanFrom)] := by
            simp [memberEvent, Node.name, hn]
          rw [hmev] at hrec
          simp only [traverseClassBodyLoop, Cursor.name, hn, String.reduceEq,
            runOpt, cbRecCfg, Bind.bind, Except.bind, Cursor.spanFrom]
          rw [show Cursor.nextSibling? ⟨cur, ⟨b, i0, y :: rest⟩ :: cs⟩ =
            some ⟨y, ⟨cur :: b, i0, rest⟩ :: cs⟩ from rfl]
          exact hrec.trans (by simp [hmev, List.append_assoc])

/-- **C4 amended** (the counterexample forces this correction).  When
`traverseClassBody` meets a syntax-error node among the member declarations
of an otherwise well-formed class body, the `$error` callback fires exactly
once for that node and the sibling field/method declarations BEFORE it are
still visited; the function then returns early (restoring the cursor), so
the sibling declarations AFTER the erroneous node are not visited. -/
theorem classBody_error_isolated_before (i0 : NodeInfo) (e : Node)
    (pre post : List Node) (fuel : Nat)
    (hname : i0.name = "ClassBody") (hename : e.name = "⚠")
    (he : e.isError = true)
    (hpre : ∀ n ∈ pre,
      n.name = "FieldDeclaration" ∨ n.name = "MethodDeclaration")
    (hf : pre.length < fuel) :
    traverseClassBody cbRecCfg fuel
      (Cursor.root (Node.mk i0 (nd "\x7b" [] :: (pre ++ e :: post)))) [] =
      .ok (Cursor.root (Node.mk i0 (nd "\x7b" [] :: (pre ++ e :: post))),
           pre.flatMap memberEvent ++ [("error", e.info.spanFrom)]) := by
  cases hsplit : pre ++ e :: post with
  | nil => exact absurd hsplit (by simp)
  | cons y rest =>
    have hrun := cbLoop_run i0 [] e hename he post pre hpre y rest hsplit.symm
      fuel hf [nd "\x7b" []] []
    have hcn : (Cursor.root (Node.mk i0 (nd "\x7b" [] :: y :: rest))).name =
        "ClassBody" := hname
    unfold traverseClassBody
    rw [if_pos hcn]
    simp only [Cursor.root, Cursor.firstChildOr, Cursor.firstChild?,
      Option.getD, synErrorCheck, synError, Cursor.isError, nd, Node.info,
      Bind.bind, Except.bind]
    exact hrun.trans (by simp; exact ⟨rfl, rfl⟩)

/-- Witness for the amended C4 theorem at a concrete class body: one field
before the error node, one field after it. -/
theorem classBody_error_isolated_before_witness :
    NodeInfo.name ⟨"ClassBody", false, 0, 0⟩ = "ClassBody" ∧
    errNd.name = "⚠" ∧ errNd.isError = true ∧
    traverseClassBody cbRecCfg 20
      (Cursor.root (Node.mk ⟨"ClassBody", false, 0, 0⟩
        (nd "\x7b" [] ::
          ([ndS "FieldDeclaration" 10 20 []] ++ errNd ::
            [ndS "FieldDeclaration" 30 40 [], nd "\x7d" []])))) [] =
      .ok (Cursor.root (Node.mk ⟨"ClassBody", false, 0, 0⟩
        (nd "\x7b" [] ::
          ([ndS "FieldDeclaration" 10 20 []] ++ errNd ::
            [ndS "FieldDeclaration" 30 40 [], nd "\x7d" []]))),
        [ndS "FieldDeclaration" 10 20 []].flatMap memberEvent ++
          [("error", errNd.info.spanFrom)]) :=
  ⟨rfl, rfl, rfl,
    classBody_error_isolated_before ⟨"ClassBody", false, 0, 0⟩ errNd
      [ndS "FieldDeclaration" 10 20 []] [ndS "FieldDeclaration" 30 40 [], nd "\x7d" []]
      20 rfl rfl rfl
      (by intro n hn; simp [ndS] at hn; subst hn; left; rfl)
      (by simp)⟩

/-! ## Claim C6 -/

/-- The declaration kinds `traverseDeclarations` dispatches on. -/
def declKinds : List String :=
  ["ModuleDeclaration", "PackageDeclaration", "ImportDeclaration",
   "ClassDeclaration", "InterfaceDeclaration", "AnnotationTypeDeclaration",
   "EnumDeclaration"]

/-- The report C6 says `traverseDeclarations` makes for one child: a
parse-error child yields a `SyntaxError` report, a valid child of unknown
kind yields an `Unexpected` report, a known declaration kind yields none.
This is the spec-side description the trace is compared with. -/
def declEvent (m : Node) : Option (TravErr × Nat) :=
  if m.isError then some (.SyntaxError, m.info.spanFrom)
  else if m.name ∈ declKinds then none
  else some (.Unexpected, m.info.spanFrom)

/-- A `traverseDeclarations` configuration with every declaration slot
populated (by a no-op callback) and a `$error` slot recording the kind and
the position of the node it is invoked on. -/
def declRecCfg : DeclarationsTraverser (List (TravErr × Nat)) :=
  { errorCb := some (fun k c s => .ok (s ++ [(k, c.spanFrom)])),
    module_ := some (fun _ s => .ok s),
    package_ := some (fun _ s => .ok s),
    import_ := some (fun _ s => .ok s),
    class_ := some (fun _ s => .ok s),
    interface_ := some (fun _ s => .ok s),
    annotType := some (fun _ s => .ok s),
    enum_ := some (fun _ s => .ok s) }

theorem declStep (i0 : NodeInfo) (cs : List Crumb) (cur : Node)
    (b after : List Node) (s : List (TravErr × Nat))
    (hwf : cur.isError = true → cur.name ∉ declKinds) (fuel : Nat) :
    traverseDeclarationsLoop declRecCfg (fuel + 1) ⟨cur, ⟨b, i0, after⟩ :: cs⟩ s =
      (match Cursor.nextSibling? ⟨cur, ⟨b, i0, after⟩ :: cs⟩ with
       | some c2 => traverseDeclarationsLoop declRecCfg fuel c2
           (s ++ (declEvent cur).toList)
       | none => .ok (Cursor.parentOr ⟨cur, ⟨b, i0, after⟩ :: cs⟩,
           s ++ (declEvent cur).toList)) := by
  have hkind : ∀ k ∈ declKinds, cur.info.name = k →
      declEvent cur = none := by
    intro k hk heq
    have hie : cur.info.isError = false := by
      by_contra hcontra
      rw [Bool.not_eq_false] at hcontra
      exact hwf hcontra (by rw [show cur.name = cur.info.name from rfl, heq]; exact hk)
    simp [declEvent, Node.isError, hie, Node.name, heq, hk]
  simp only [traverseDeclarationsLoop]
  split
  · rw [hkind "ModuleDeclaration" (by simp [declKinds]) (by assumption)]
    simp [runOpt, declRecCfg, Bind.bind, Except.bind]
  · rw [hkind "PackageDeclaration" (by simp [declKinds]) (by assumption)]
    simp [runOpt, declRecCfg, Bind.bind, Except.bind]
  · rw [hkind "ImportDeclaration" (by simp [declKinds]) (by assumption)]
    simp [runOpt, declRecCfg, Bind.bind, Except.bind]
  · rw [hkind "ClassDeclaration" (by simp [declKinds]) (by assumption)]
    simp [runOpt, declRecCfg, Bind.bind, Except.bind]
  · rw [hkind "InterfaceDeclaration" (by simp [declKinds]) (by assumption)]
    simp [runOpt, declRecCfg, Bind.bind, Except.bind]
  · rw [hkind "AnnotationTypeDeclaration" (by simp [declKinds]) (by assumption)]
    simp [runOpt, declRecCfg, Bind.bind, Except.bind]
  · rw [hkind "EnumDeclaration" (by simp [declKinds]) (by assumption)]
    simp [runOpt, declRecCfg, Bind.bind, Except.bind]
  · rename_i x h1 h2 h3 h4 h5 h6 h7
    have hnk : cur.info.name ∉ declKinds := by
      simp only [declKinds, List.mem_cons, List.not_mem_nil, or_false]
      push_neg
      exact ⟨fun h => absurd h h1, fun h => absurd h h2, fun h => absurd h h3,
        fun h => absurd h h4, fun h => absurd h h5, fun h => absurd h h6,
        fun h => absurd h h7⟩
    by_cases hie : cur.info.isError
    · have hev : declEvent cur = some (.SyntaxError, cur.info.spanFrom) := by
        simp [declEvent, Node.isError, hie]
      simp [Cursor.isError, hie, runErrorCb, declRecCfg, Bind.bind,
        Except.bind, hev, Cursor.spanFrom]
    · have hev : declEvent cur = some (.Unexpected, cur.info.spanFrom) := by
        simp [declEvent, Node.isError, hie, Node.name, hnk]
      simp [Cursor.isError, hie, runErrorCb, declRecCfg, Bind.bind,
        Except.bind, hev, Cursor.spanFrom]

theorem declLoop_run (i0 : NodeInfo) (cs : List Crumb) :
    ∀ (after : List Node) (fuel : Nat), after.length < fuel →
    ∀ (cur : Node),
    (∀ m ∈ cur :: after, m.isError = true → m.name ∉ declKinds) →
    ∀ (b : List Node) (s : List (TravErr × Nat)),
    traverseDeclarationsLoop declRecCfg fuel ⟨cur, ⟨b, i0, after⟩ :: cs⟩ s =
      .ok (⟨Node.mk i0 (b.reverse ++ cur :: after), cs⟩,
           s ++ (cur :: after).filterMap declEvent) := by
  intro after
  induction after with
  | nil =>
    intro fuel hf cur hwf b s
    cases fuel with
    | zero => simp at hf
    | succ fuel =>
      rw [declStep i0 cs cur b [] s (hwf cur (by simp)) fuel]
      cases hd : declEvent cur <;>
        simp [hd, Cursor.nextSibling?, Cursor.parentOr, Cursor.parent?]
  | cons y rest ih =>
    intro fuel hf cur hwf b s
    cases fuel with
    | zero => simp at hf
    | succ fuel =>
      rw [declStep i0 cs cur b (y :: rest) s (hwf cur (by simp)) fuel]
      rw [show Cursor.nextSibling? ⟨cur, ⟨b, i0, y :: rest⟩ :: cs⟩ =
        some ⟨y, ⟨cur :: b, i0, rest⟩ :: cs⟩ from rfl]
      exact (ih fuel (Nat.lt_of_succ_lt_succ hf) y
        (fun m hm => hwf m (List.mem_cons_of_mem _ hm)) (cur :: b)
        (s ++ (declEvent cur).toList)).trans
        (by cases hd : declEvent cur <;> simp [hd, List.append_assoc])

/-- **C6** (confirmed).  On any tree in which no known-declaration-kind child
carries the parser error flag (lezer error nodes are the anonymous `⚠`
kind), `traverseDeclarations` — with every declaration slot populated and a
recording `$error` callback — returns normally (no exception is thrown), the
cursor ends where it started, and the `$error` trace contains exactly one
`SyntaxError` report per parse-error child and one `Unexpected` report per
valid child of unknown kind, in source order: every child is processed and
traversal always continues with the next sibling. -/
theorem declarations_error_taxonomy (n : Node) (fuel : Nat)
    (hwf : ∀ m ∈ n.children, m.isError = true → m.name ∉ declKinds)
    (hf : n.children.length < fuel) :
    traverseDeclarations declRecCfg fuel (Cursor.root n) [] =
      .ok (Cursor.root n, n.children.filterMap declEvent) := by
  cases n with
  | mk i ch =>
    cases ch with
    | nil =>
      simp [traverseDeclarations, Cursor.firstChild?, Cursor.root,
        Node.children]
    | cons y rest =>
      have hf2 : rest.length + 1 < fuel := by
        simpa [Node.children] using hf
      have hrun := declLoop_run i [] rest fuel (by omega) y
        (by simpa [Node.children] using hwf) [] []
      simp only [traverseDeclarations, Cursor.root, Cursor.firstChild?]
      exact hrun.trans (by simp [Node.children])

/-- Witness for C6: a program whose children are an import declaration, an
error node, and an unknown-but-valid statement node. -/
theorem declarations_error_taxonomy_witness :
    (∀ m ∈ (nd "Program" [nd "ImportDeclaration" [], errNd,
        ndS "ExpressionStatement" 5 9 []]).children,
      m.isError = true → m.name ∉ declKinds) ∧
    (nd "Program" [nd "ImportDeclaration" [], errNd,
        ndS "ExpressionStatement" 5 9 []]).children.length < 9 ∧
    traverseDeclarations declRecCfg 9
      (Cursor.root (nd "Program" [nd "ImportDeclaration" [], errNd,
        ndS "ExpressionStatement" 5 9 []])) [] =
      .ok (Cursor.root (nd "Program" [nd "ImportDeclaration" [], errNd,
        ndS "ExpressionStatement" 5 9 []]),
        (nd "Program" [nd "ImportDeclaration" [], errNd,
          ndS "ExpressionStatement" 5 9 []]).children.filterMap declEvent) :=
  ⟨by
    intro m hm he
    simp [nd, ndS, errNd, Node.children] at hm
    rcases hm with h | h | h <;> subst h <;>
      simp_all [nd, ndS, errNd, Node.name, Node.isError, Node.info, declKinds],
   by simp [nd, ndS, errNd, Node.children],
   declarations_error_taxonomy _ 9
    (by
      intro m hm he
      simp [nd, ndS, errNd, Node.children] at hm
      rcases hm with h | h | h <;> subst h <;>
        simp_all [nd, ndS, errNd, Node.name, Node.isError, Node.info, declKinds])
    (by simp [nd, ndS, errNd, Node.children])⟩

/-! ## Claim C7 -/

/-- Every statement kind handled by the `traverseBlock` dispatch table. -/
def stmtKinds : List String :=
  [";", "ModuleDeclaration", "PackageDeclaration", "ImportDeclaration", "ClassDeclaration", "InterfaceDeclaration", "AnnotationTypeDeclaration", "EnumDeclaration",
   "ExpressionStatement", "LabeledStatement", "IfStatement", "WhileStatement", "ForStatement", "EnhancedForStatement", "Block", "AssertStatement",
   "SwitchStatement", "DoStatement", "BreakStatement", "ContinueStatement", "ReturnStatement", "SynchronizedStatement",
   "LocalVariableStatement", "ThrowStatement", "TryStatement", "TryWithResourcesStatement"]

/-- The four operand-carrying statement kinds of the claim. -/
def opKinds : List String :=
  ["BreakStatement", "ContinueStatement", "ReturnStatement",
   "ThrowStatement"]

/-- A recording callback for a `TreeCursor | null` statement slot: records
the slot name and, when not called with `null`, the position of the node the
cursor sits on. -/
def opRec (slot : String) : OptCursorCb (List (String × Option Nat)) :=
  fun a s => .ok (s ++ [(slot, a.map Cursor.spanFrom)])

/-- A `traverseBlock` configuration observing only the
`break`/`continue`/`return`/`throw` slots. -/
def blockRecCfg : StatementsTraverser (List (String × Option Nat)) :=
  { break_ := some (opRec "break"),
    continue_ := some (opRec "continue"),
    return_ := some (opRec "return"),
    throw_ := some (opRec "throw") }

/-- Spec-side description of one operand-carrying statement, following the
claim's words: the callback receives `null` exactly when the node
immediately following the keyword is `";"`; otherwise it receives the cursor
on that (operand) node; with no node after the keyword the cursor stays on
the keyword itself. -/
def operandEvent (slot : String) (n : Node) : List (String × Option Nat) :=
  match n.children with
  | [] => []
  | [k] => [(slot, some k.info.spanFrom)]
  | _ :: x :: _ =>
      if x.name = ";" then [(slot, none)]
      else [(slot, some x.info.spanFrom)]

/-- Spec-side description of the observable events of one block child under
`blockRecCfg`. -/
def stmtEvent (n : Node) : List (String × Option Nat) :=
  if n.name = "BreakStatement" then operandEvent "break" n
  else if n.name = "ContinueStatement" then operandEvent "continue" n
  else if n.name = "ReturnStatement" then operandEvent "return" n
  else if n.name = "ThrowStatement" then operandEvent "throw" n
  else []

/-- A block child is well formed for C7 when its kind is in the dispatch
table and, for the four operand-carrying kinds, it starts with its keyword
(a first child that is not the terminator). -/
def stmtOk (m : Node) : Prop :=
  m.name ∈ stmtKinds ∧
  (m.name ∈ opKinds → ∃ k rest, m.children = k :: rest ∧ k.name ≠ ";")

theorem operandStep_run (slot : String) (cur : Node) (cr : List Crumb)
    (s : List (String × Option Nat)) (k : Node) (rest : List Node)
    (hch : cur.children = k :: rest) (hk : k.name ≠ ";") :
    operandStep (some (opRec slot)) ⟨cur, cr⟩ s =
      .ok (⟨cur, cr⟩, s ++ operandEvent slot cur) := by
  cases cur with
  | mk i ch =>
    rw [show Node.children (Node.mk i ch) = ch from rfl] at hch
    subst hch
    cases rest with
    | nil =>
      have hkn : k.info.name ≠ ";" := hk
      simp [operandStep, Cursor.firstChildOr, Cursor.firstChild?,
        Cursor.nextSiblingOr, Cursor.nextSibling?, Cursor.parentOr,
        Cursor.parent?, Cursor.name, hkn, runOptC, opRec, operandEvent,
        Node.children, Cursor.spanFrom, Bind.bind, Except.bind]
    | cons x rest2 =>
      by_cases hx : x.info.name = ";"
      · simp [operandStep, Cursor.firstChildOr, Cursor.firstChild?,
          Cursor.nextSiblingOr, Cursor.nextSibling?, Cursor.parentOr,
          Cursor.parent?, Cursor.name, Node.name, hx, runOptC, opRec,
          operandEvent, Node.children, Cursor.spanFrom, Bind.bind,
          Except.bind]
      · simp [operandStep, Cursor.firstChildOr, Cursor.firstChild?,
          Cursor.nextSiblingOr, Cursor.nextSibling?, Cursor.parentOr,
          Cursor.parent?, Cursor.name, Node.name, hx, runOptC, opRec,
          operandEvent, Node.children, Cursor.spanFrom, Bind.bind,
          Except.bind]

theorem blockStep (i0 : NodeInfo) (cs : List Crumb) (cur : Node)
    (b after : List Node) (s : List (String × Option Nat))
    (hok : stmtOk cur) (fuel : Nat) :
    traverseBlockLoop blockRecCfg (fuel + 1) ⟨cur, ⟨b, i0, after⟩ :: cs⟩ s =
      (match Cursor.nextSibling? ⟨cur, ⟨b, i0, after⟩ :: cs⟩ with
       | some c2 => traverseBlockLoop blockRecCfg fuel c2 (s ++ stmtEvent cur)
       | none => .ok (Cursor.parentOr ⟨cur, ⟨b, i0, after⟩ :: cs⟩,
           s ++ stmtEvent cur)) := by
  obtain ⟨hmem, hop⟩ := hok
  simp only [traverseBlockLoop]
  split
  · rename_i heq
    have heqn : cur.info.name = ";" := heq
    simp [stmtEvent, Node.name, heqn, runOpt, runOptC, blockRecCfg,
      Bind.bind, Except.bind]
  · rename_i heq
    have heqn : cur.info.name = "ModuleDeclaration" := heq
    simp [stmtEvent, Node.name, heqn, runOpt, runOptC, blockRecCfg,
      Bind.bind, Except.bind]
  · rename_i heq
    have heqn : cur.info.name = "PackageDeclaration" := heq
    simp [stmtEvent, Node.name, heqn, runOpt, runOptC, blockRecCfg,
      Bind.bind, Except.bind]
  · rename_i heq
    have heqn : cur.info.name = "ImportDeclaration" := heq
    simp [stmtEvent, Node.name, heqn, runOpt, runOptC, blockRecCfg,
      Bind.bind, Except.bind]
  · rename_i heq
    have heqn : cur.info.name = "ClassDeclaration" := heq
    simp [stmtEvent, Node.name, heqn, runOpt, runOptC, blockRecCfg,
      Bind.bind, Except.bind]
  · rename_i heq
    have heqn : cur.info.name = "InterfaceDeclaration" := heq
    simp [stmtEvent, Node.name, heqn, runOpt, runOptC, blockRecCfg,
      Bind.bind, Except.bind]
  · rename_i heq
    have heqn : cur.info.name = "AnnotationTypeDeclaration" := heq
    simp [stmtEvent, Node.name, heqn, runOpt, runOptC, blockRecCfg,
      Bind.bind, Except.bind]
  · rename_i heq
    have heqn : cur.info.name = "EnumDeclaration" := heq
    simp [stmtEvent, Node.name, heqn, runOpt, runOptC, blockRecCfg,
      Bind.bind, Except.bind]
  · rename_i heq
    have heqn : cur.info.name = "ExpressionStatement" := heq
    simp [stmtEvent, Node.name, heqn, runOpt, runOptC, blockRecCfg,
      Bind.bind, Except.bind]
  · rename_i heq
    have heqn : cur.info.name = "LabeledStatement" := heq
    simp [stmtEvent, Node.name, heqn, runOpt, runOptC, blockRecCfg,
      Bind.bind, Except.bind]
  · rename_i heq
    have heqn : cur.info.name = "IfStatement" := heq
    simp [stmtEvent, Node.name, heqn, runOpt, runOptC, blockRecCfg,
      Bind.bind, Except.bind]
  · rename_i heq
    have heqn : cur.info.name = "WhileStatement" := heq
    simp [stmtEvent, Node.name, heqn, runOpt, runOptC, blockRecCfg,
      Bind.bind, Except.bind]
  · rename_i heq
    have heqn : cur.info.name = "ForStatement" := heq
    simp [stmtEvent, Node.name, heqn, runOpt, runOptC, blockRecCfg,
      Bind.bind, Except.bind]
  · rename_i heq
    have heqn : cur.info.name = "EnhancedForStatement" := heq
    simp [stmtEvent, Node.name, heqn, runOpt, runOptC, blockRecCfg,
      Bind.bind, Except.bind]
  · rename_i heq
    have heqn : cur.info.name = "Block" := heq
    simp [stmtEvent, Node.name, heqn, runOpt, runOptC, blockRecCfg,
      Bind.bind, Except.bind]
  · rename_i heq
    have heqn : cur.info.name = "AssertStatement" := heq
    simp [stmtEvent, Node.name, heqn, runOpt, runOptC, blockRecCfg,
      Bind.bind, Except.bind]
  · rename_i heq
    have heqn : cur.info.name = "SwitchStatement" := heq
    simp [stmtEvent, Node.name, heqn, runOpt, runOptC, blockRecCfg,
      Bind.bind, Except.bind]
  · rename_i heq
    have heqn : cur.info.name = "DoStatement" := heq
    simp [stmtEvent, Node.name, heqn, runOpt, runOptC, blockRecCfg,
      Bind.bind, Except.bind]
  · rename_i heq
    have heqn : cur.info.name = "BreakStatement" := heq
    obtain ⟨k, rest, hch, hk⟩ := hop (by
      rw [show cur.name = cur.info.name from rfl, heqn]; simp [opKinds])
    simp only [blockRecCfg]
    rw [operandStep_run "break" cur (⟨b, i0, after⟩ :: cs) s k rest hch hk]
    simp [stmtEvent, Node.name, heqn, Bind.bind, Except.bind]
  · rename_i heq
    have heqn : cur.info.name = "ContinueStatement" := heq
    obtain ⟨k, rest, hch, hk⟩ := hop (by
      rw [show cur.name = cur.info.name from rfl, heqn]; simp [opKinds])
    simp only [blockRecCfg]
    rw [operandStep_run "continue" cur (⟨b, i0, after⟩ :: cs) s k rest hch hk]
    simp [stmtEvent, Node.name, heqn, Bind.bind, Except.bind]
  · rename_i heq
    have heqn : cur.info.name = "ReturnStatement" := heq
    obtain ⟨k, rest, hch, hk⟩ := hop (by
      rw [show cur.name = cur.info.name from rfl, heqn]; simp [opKinds])
    simp only [blockRecCfg]
    rw [operandStep_run "return" cur (⟨b, i0, after⟩ :: cs) s k rest hch hk]
    simp [stmtEvent, Node.name, heqn, Bind.bind, Except.bind]
  · rename_i heq
    have heqn : cur.info.name = "SynchronizedStatement" := heq
    simp [stmtEvent, Node.name, heqn, runOpt, runOptC, blockRecCfg,
      Bind.bind, Except.bind]
  · rename_i heq
    have heqn : cur.info.name = "LocalVariableStatement" := heq
    simp [stmtEvent, Node.name, heqn, runOpt, runOptC, blockRecCfg,
      Bind.bind, Except.bind]
  · rename_i heq
    have heqn : cur.info.name = "ThrowStatement" := heq
    obtain ⟨k, rest, hch, hk⟩ := hop (by
      rw [show cur.name = cur.info.name from rfl, heqn]; simp [opKinds])
    simp only [blockRecCfg]
    rw [operandStep_run "throw" cur (⟨b, i0, after⟩ :: cs) s k rest hch hk]
    simp [stmtEvent, Node.name, heqn, Bind.bind, Except.bind]
  · rename_i heq
    have heqn : cur.info.name = "TryStatement" := heq
    simp [stmtEvent, Node.name, heqn, runOpt, runOptC, blockRecCfg,
      Bind.bind, Except.bind]
  · rename_i heq
    have heqn : cur.info.name = "TryWithResourcesStatement" := heq
    simp [stmtEvent, Node.name, heqn, runOpt, runOptC, blockRecCfg,
      Bind.bind, Except.bind]
  · rename_i x h1 h2 h3 h4 h5 h6 h7 h8 h9 h10 h11 h12 h13 h14 h15 h16 h17 h18 h19 h20 h21 h22 h23 h24 h25 h26
    exact absurd (show cur.info.name ∈ stmtKinds from hmem)
      (by
        simp only [stmtKinds, List.mem_cons, List.not_mem_nil, or_false]
        push_neg
        exact ⟨h1, h2, h3, h4, h5, h6, h7, h8, h9, h10, h11, h12, h13, h14, h15, h16, h17, h18, h19, h20, h21, h22, h23, h24, h25, h26⟩)

theorem blockLoop_run (i0 : NodeInfo) (cs : List Crumb) :
    ∀ (after : List Node) (fuel : Nat), after.length < fuel →
    ∀ (cur : Node), (∀ m ∈ cur :: after, stmtOk m) →
    ∀ (b : List Node) (s : List (String × Option Nat)),
    traverseBlockLoop blockRecCfg fuel ⟨cur, ⟨b, i0, after⟩ :: cs⟩ s =
      .ok (⟨Node.mk i0 (b.reverse ++ cur :: after), cs⟩,
           s ++ (cur :: after).flatMap stmtEvent) := by
  intro after
  induction after with
  | nil =>
    intro fuel hf cur hwf b s
    cases fuel with
    | zero => simp at hf
    | succ fuel =>
      rw [blockStep i0 cs cur b [] s (hwf cur (by simp)) fuel]
      simp [Cursor.nextSibling?, Cursor.parentOr, Cursor.parent?]
  | cons y rest ih =>
    intro fuel hf cur hwf b s
    cases fuel with
    | zero => simp at hf
    | succ fuel =>
      rw [blockStep i0 cs cur b (y :: rest) s (hwf cur (by simp)) fuel]
      rw [show Cursor.nextSibling? ⟨cur, ⟨b, i0, y :: rest⟩ :: cs⟩ =
        some ⟨y, ⟨cur :: b, i0, rest⟩ :: cs⟩ from rfl]
      exact (ih fuel (Nat.lt_of_succ_lt_succ hf) y
        (fun m hm => hwf m (List.mem_cons_of_mem _ hm)) (cur :: b)
        (s ++ stmtEvent cur)).trans (by simp [List.append_assoc])

/-- **C7** (confirmed).  For every break/continue/return/throw statement in
a block whose children are well-formed statements, the corresponding
callback is invoked with the explicit absent-operand value (`null`) if and
only if the node immediately following the statement keyword is `";"`;
otherwise it is invoked with the cursor on that operand node — this is the
content of `stmtEvent`/`operandEvent`, which the recorded trace of
`traverseBlock` equals, one record per operand statement in source order. -/
theorem block_operand_absence (i0 : NodeInfo) (children : List Node)
    (fuel : Nat) (hname : i0.name = "Block")
    (hwf : ∀ m ∈ children, stmtOk m) (hf : children.length < fuel) :
    traverseBlock blockRecCfg fuel (Cursor.root (Node.mk i0 children)) [] =
      .ok (Cursor.root (Node.mk i0 children),
           children.flatMap stmtEvent) := by
  have hcn : (Cursor.root (Node.mk i0 children)).name = "Block" := hname
  cases children with
  | nil =>
    simp [traverseBlock, hcn, Cursor.firstChild?, Cursor.root, Cursor.name,
      Node.name, Node.info, hname]
  | cons y rest =>
    have hrun := blockLoop_run i0 [] rest fuel
      (Nat.lt_of_succ_lt (by simpa using hf)) y
      (by simpa using hwf) [] []
    simp only [traverseBlock, Cursor.root, Cursor.name, Node.name,
      Node.info, hname, if_pos, Cursor.firstChild?]
    refine hrun.trans ?_
    simp

/-- Witness for C7: the block `{ break; continue Outer; return 1 + 1;
throw e; if (x) {} }` — a bare break (null), a labelled continue (operand),
a return with expression (operand), a throw with operand, plus an unrelated
statement. -/
theorem block_operand_absence_witness :
    NodeInfo.name ⟨"Block", false, 0, 0⟩ = "Block" ∧
    (∀ m ∈ [nd "BreakStatement" [nd "break" [], nd ";" []],
            nd "ContinueStatement"
              [nd "continue" [], ndS "Label" 3 8 [], nd ";" []],
            nd "ReturnStatement"
              [nd "return" [], ndS "BinaryExpression" 12 17 [], nd ";" []],
            nd "ThrowStatement"
              [nd "throw" [], ndS "Identifier" 25 26 [], nd ";" []],
            nd "IfStatement" [nd "if" []]], stmtOk m) ∧
    ([nd "BreakStatement" [nd "break" [], nd ";" []],
      nd "ContinueStatement" [nd "continue" [], ndS "Label" 3 8 [], nd ";" []],
      nd "ReturnStatement"
        [nd "return" [], ndS "BinaryExpression" 12 17 [], nd ";" []],
      nd "ThrowStatement" [nd "throw" [], ndS "Identifier" 25 26 [], nd ";" []],
      nd "IfStatement" [nd "if" []]] : List Node).length < 9 ∧
    traverseBlock blockRecCfg 9
      (Cursor.root (Node.mk ⟨"Block", false, 0, 0⟩
        [nd "BreakStatement" [nd "break" [], nd ";" []],
         nd "ContinueStatement"
           [nd "continue" [], ndS "Label" 3 8 [], nd ";" []],
         nd "ReturnStatement"
           [nd "return" [], ndS "BinaryExpression" 12 17 [], nd ";" []],
         nd "ThrowStatement"
           [nd "throw" [], ndS "Identifier" 25 26 [], nd ";" []],
         nd "IfStatement" [nd "if" []]])) [] =
      .ok (Cursor.root (Node.mk ⟨"Block", false, 0, 0⟩
        [nd "BreakStatement" [nd "break" [], nd ";" []],
         nd "ContinueStatement"
           [nd "continue" [], ndS "Label" 3 8 [], nd ";" []],
         nd "ReturnStatement"
           [nd "return" [], ndS "BinaryExpression" 12 17 [], nd ";" []],
         nd "ThrowStatement"
           [nd "throw" [], ndS "Identifier" 25 26 [], nd ";" []],
         nd "IfStatement" [nd "if" []]]),
        ([nd "BreakStatement" [nd "break" [], nd ";" []],
          nd "ContinueStatement"
            [nd "continue" [], ndS "Label" 3 8 [], nd ";" []],
          nd "ReturnStatement"
            [nd "return" [], ndS "BinaryExpression" 12 17 [], nd ";" []],
          nd "ThrowStatement"
            [nd "throw" [], ndS "Identifier" 25 26 [], nd ";" []],
          nd "IfStatement" [nd "if" []]]).flatMap stmtEvent) := by
  refine ⟨rfl, ?_, by simp, ?_⟩
  · intro m hm
    simp only [List.mem_cons, List.not_mem_nil, or_false] at hm
    rcases hm with h | h | h | h | h <;> subst h <;>
      exact ⟨by simp [nd, Node.name, Node.info, stmtKinds], by
        intro _
        first
          | exact ⟨_, _, rfl, by simp [nd, ndS, Node.name, Node.info]⟩
          | simp_all [nd, Node.name, Node.info, opKinds]⟩
  · refine block_operand_absence ⟨"Block", false, 0, 0⟩ _ 9 rfl ?_ (by simp)
    intro m hm
    simp only [List.mem_cons, List.not_mem_nil, or_false] at hm
    rcases hm with h | h | h | h | h <;> subst h <;>
      exact ⟨by simp [nd, Node.name, Node.info, stmtKinds], by
        intro _
        first
          | exact ⟨_, _, rfl, by simp [nd, ndS, Node.name, Node.info]⟩
          | simp_all [nd, Node.name, Node.info, opKinds]⟩


/-! ## C8: the Outline and a `public static final int X = 1;` field -/

/-- Source text of the C8 scenario's first program. -/
def srcC : String := "class C \x7b public static final int X = 1; \x7d"

/-- `class C { public static final int X = 1; }` as parsed by the Java
grammar: the field declaration carries a `Modifiers` child, the type, the
declarator and the terminator. -/
def classC : Node :=
  nd "ClassDeclaration"
    [nd "class" [],
     ndS "Definition" 6 7 [],
     nd "ClassBody"
       [nd "\x7b" [],
        nd "FieldDeclaration"
          [nd "Modifiers"
            [nd "public" [], nd "static" [], nd "final" []],
           ndS "IntegralType" 30 33 [],
           ndS "VariableDeclarator" 34 39 [],
           nd ";" []],
        nd "\x7d" []]]

/-- Source text of the C8 scenario's second program: a field with no access
modifier keyword at all. -/
def srcD : String := "class D \x7b int y; \x7d"

/-- `class D { int y; }` as parsed by the Java grammar: the field
declaration has no `Modifiers` child. -/
def classD : Node :=
  nd "ClassDeclaration"
    [nd "class" [],
     ndS "Definition" 6 7 [],
     nd "ClassBody"
       [nd "\x7b" [],
        nd "FieldDeclaration"
          [ndS "IntegralType" 10 13 [],
           ndS "VariableDeclarator" 14 15 [],
           nd ";" []],
        nd "\x7d" []]]

/-- Counterexample to C8 as stated: running `Outline.update` over
`class C { public static final int X = 1; }` classifies the field in the
body-local variables (`fieldVisibility = "public"`, `fieldStatic`,
`fieldFinal`) but records nothing — both `fields` and `staticFields` remain
empty, because the `declarator` wiring of the field traversal is commented
out in the source, so no field is ever "recorded" by the Outline. -/
theorem outline_field_not_recorded :
    Outline.update (subData srcC) 20 (Cursor.root (nd "Program" [classC]))
      OutlineState.start =
    .ok { localType := some "class", type_ := "class", name := some "C",
          visibility := "package", static_ := false, final_ := false,
          deprecated := false, fieldVisibility := "public",
          fieldStatic := true, fieldFinal := true,
          fields := [], staticFields := [] } := rfl

/-- **C8** (corrected).  For `class C { public static final int X = 1; }`
the Outline *classifies* the field's modifiers into the body-local
variables — visibility `"public"`, static and final both true — and for
`class D { int y; }` (no access modifier keyword) the classified visibility
defaults to `"package"`; but in neither case is the field itself recorded:
`fields` and `staticFields` stay empty on every run, since the recording
code is commented out in the source. -/
theorem outline_field_classified_not_recorded :
    (Outline.update (subData srcC) 20 (Cursor.root (nd "Program" [classC]))
        OutlineState.start =
      .ok { localType := some "class", type_ := "class", name := some "C",
            visibility := "package", static_ := false, final_ := false,
            deprecated := false, fieldVisibility := "public",
            fieldStatic := true, fieldFinal := true,
            fields := [], staticFields := [] }) ∧
    (Outline.update (subData srcD) 20 (Cursor.root (nd "Program" [classD]))
        OutlineState.start =
      .ok { localType := some "class", type_ := "class", name := some "D",
            visibility := "package", static_ := false, final_ := false,
            deprecated := false, fieldVisibility := "package",
            fieldStatic := false, fieldFinal := false,
            fields := [], staticFields := [] }) :=
  ⟨rfl, rfl⟩


/-! ## C5: Outline.update aborts on the second top-level class -/

/-- Source text of the C5 scenario: two top-level classes. -/
def srcAB : String := "public final class A \x7b\x7d class B \x7b\x7d"

/-- `public final class A {}`, the first top-level class of the C5
scenario, as parsed by the Java grammar. -/
def classA : Node :=
  nd "ClassDeclaration"
    [nd "Modifiers" [nd "public" [], nd "final" []],
     nd "class" [],
     ndS "Definition" 19 20 [],
     nd "ClassBody" [nd "\x7b" [], nd "\x7d" []]]

/-- The Outline state after `Outline.update` has processed `classA` and
before it reaches the second declaration: the summary derived from the
first class (`name = "A"`, public, final) with `localType` marked. -/
def outlineAfterA : OutlineState :=
  { localType := some "class", type_ := "class", name := some "A",
    visibility := "public", static_ := false, final_ := true,
    deprecated := false, fieldVisibility := "package", fieldStatic := false,
    fieldFinal := false, fields := [], staticFields := [] }

set_option maxHeartbeats 1600000 in
/-- **C5** (confirmed).  On a program whose children are `classA` followed
by any second node parsed as a `ClassDeclaration`, `Outline.update` aborts
(the `traverseType` closure runs `throw 0` because a top-level type was
already seen) and the error state it unwinds with is exactly
`outlineAfterA`: the summary derived from the first class — name `"A"`,
visibility `"public"`, `final` — is not overwritten by anything from the
second declaration. -/
theorem outline_second_class_aborts (b : Node)
    (hb : b.name = "ClassDeclaration") :
    Outline.update (subData srcAB) 20
      (Cursor.root (Node.mk ⟨"Program", false, 0, 34⟩ [classA, b]))
      OutlineState.start =
      .error (.thrownVal, outlineAfterA) := by
  have h1 : Outline.update (subData srcAB) 20
      (Cursor.root (Node.mk ⟨"Program", false, 0, 34⟩ [classA, b]))
      OutlineState.start =
    (traverseDeclarationsLoop (outlineDeclCfg (subData srcAB) 20) (18 + 1)
        ⟨b, [⟨[classA], ⟨"Program", false, 0, 34⟩, []⟩]⟩ outlineAfterA).bind
      (fun x => match x with
        | (_, s) => Except.ok {s with type_ := s.localType.getD "class"}) :=
    rfl
  rw [h1]
  cases b with
  | mk bi bch =>
    have hb' : bi.name = "ClassDeclaration" := hb
    generalize (18 : Nat) = fl
    simp only [traverseDeclarationsLoop]
    split
    · rename_i heq
      have hx : bi.name = "ModuleDeclaration" := heq
      rw [hb'] at hx; simp at hx
    · rename_i heq
      have hx : bi.name = "PackageDeclaration" := heq
      rw [hb'] at hx; simp at hx
    · rename_i heq
      have hx : bi.name = "ImportDeclaration" := heq
      rw [hb'] at hx; simp at hx
    · rfl
    · rename_i heq
      have hx : bi.name = "InterfaceDeclaration" := heq
      rw [hb'] at hx; simp at hx
    · rename_i heq
      have hx : bi.name = "AnnotationTypeDeclaration" := heq
      rw [hb'] at hx; simp at hx
    · rename_i heq
      have hx : bi.name = "EnumDeclaration" := heq
      rw [hb'] at hx; simp at hx
    · rename_i x h1 h2 h3 h4 h5 h6 h7
      exact absurd hb' h4

/-- Witness for C5: the program `public final class A {} class B {}` with a
concrete second class `B`. -/
theorem outline_second_class_aborts_witness :
    (nd "ClassDeclaration"
        [nd "class" [], ndS "Definition" 30 31 []]).name =
      "ClassDeclaration" ∧
    Outline.update (subData srcAB) 20
      (Cursor.root (Node.mk ⟨"Program", false, 0, 34⟩
        [classA,
         nd "ClassDeclaration"
           [nd "class" [], ndS "Definition" 30 31 []]]))
      OutlineState.start =
      .error (.thrownVal, outlineAfterA) :=
  ⟨rfl, outline_second_class_aborts _ rfl⟩

/-! ## C10: Outline.update without any top-level type declaration -/

/-- The four top-level type-declaration kinds whose slots `Outline.update`
populates in its `traverseDeclarations` configuration. -/
def typeDeclKinds : List String :=
  ["ClassDeclaration", "InterfaceDeclaration", "AnnotationTypeDeclaration",
   "EnumDeclaration"]

theorem outlineDeclStep (src : Nat → Nat → String) (fl : Nat)
    (i0 : NodeInfo) (cs : List Crumb) (cur : Node)
    (b after : List Node) (s : OutlineState)
    (hcur : cur.name ∉ typeDeclKinds) (fuel : Nat) :
    traverseDeclarationsLoop (outlineDeclCfg src fl) (fuel + 1)
        ⟨cur, ⟨b, i0, after⟩ :: cs⟩ s =
      (match Cursor.nextSibling? ⟨cur, ⟨b, i0, after⟩ :: cs⟩ with
       | some c2 => traverseDeclarationsLoop (outlineDeclCfg src fl) fuel c2 s
       | none => .ok (Cursor.parentOr ⟨cur, ⟨b, i0, after⟩ :: cs⟩, s)) := by
  simp only [traverseDeclarationsLoop]
  split
  · simp [runOpt, outlineDeclCfg, Bind.bind, Except.bind]
  · simp [runOpt, outlineDeclCfg, Bind.bind, Except.bind]
  · simp [runOpt, outlineDeclCfg, Bind.bind, Except.bind]
  · rename_i heq
    have heqn : cur.info.name = "ClassDeclaration" := heq
    exact absurd
      (show cur.name ∈ typeDeclKinds by
        rw [show cur.name = cur.info.name from rfl, heqn]
        simp [typeDeclKinds])
      hcur
  · rename_i heq
    have heqn : cur.info.name = "InterfaceDeclaration" := heq
    exact absurd
      (show cur.name ∈ typeDeclKinds by
        rw [show cur.name = cur.info.name from rfl, heqn]
        simp [typeDeclKinds])
      hcur
  · rename_i heq
    have heqn : cur.info.name = "AnnotationTypeDeclaration" := heq
    exact absurd
      (show cur.name ∈ typeDeclKinds by
        rw [show cur.name = cur.info.name from rfl, heqn]
        simp [typeDeclKinds])
      hcur
  · rename_i heq
    have heqn : cur.info.name = "EnumDeclaration" := heq
    exact absurd
      (show cur.name ∈ typeDeclKinds by
        rw [show cur.name = cur.info.name from rfl, heqn]
        simp [typeDeclKinds])
      hcur
  · by_cases hie : Cursor.isError ⟨cur, ⟨b, i0, after⟩ :: cs⟩ <;>
      simp [hie, runErrorCb, outlineDeclCfg, Bind.bind, Except.bind]

theorem outlineDeclLoop_run (src : Nat → Nat → String) (fl : Nat)
    (i0 : NodeInfo) (cs : List Crumb) :
    ∀ (after : List Node) (fuel : Nat), after.length < fuel →
    ∀ (cur : Node), (∀ m ∈ cur :: after, m.name ∉ typeDeclKinds) →
    ∀ (b : List Node) (s : OutlineState),
    traverseDeclarationsLoop (outlineDeclCfg src fl) fuel
        ⟨cur, ⟨b, i0, after⟩ :: cs⟩ s =
      .ok (⟨Node.mk i0 (b.reverse ++ cur :: after), cs⟩, s) := by
  intro after
  induction after with
  | nil =>
    intro fuel hf cur hwf b s
    cases fuel with
    | zero => simp at hf
    | succ fuel =>
      rw [outlineDeclStep src fl i0 cs cur b [] s (hwf cur (by simp)) fuel]
      simp [Cursor.nextSibling?, Cursor.parentOr, Cursor.parent?]
  | cons y rest ih =>
    intro fuel hf cur hwf b s
    cases fuel with
    | zero => simp at hf
    | succ fuel =>
      rw [outlineDeclStep src fl i0 cs cur b (y :: rest) s
        (hwf cur (by simp)) fuel]
      rw [show Cursor.nextSibling? ⟨cur, ⟨b, i0, y :: rest⟩ :: cs⟩ =
        some ⟨y, ⟨cur :: b, i0, rest⟩ :: cs⟩ from rfl]
      exact (ih fuel (Nat.lt_of_succ_lt_succ hf) y
        (fun m hm => hwf m (List.mem_cons_of_mem _ hm)) (cur :: b) s).trans
        (by simp)

/-- **C10** (confirmed).  If no child of the traversed node is one of the
four top-level type-declaration kinds, `Outline.update` completes without
error and leaves the outline in its default state: `type` is `"class"`
(the `type || "class"` fallback), `name` is `null`, `visibility` is
`"package"` and the `static`/`final`/`deprecated` flags are `false` —
regardless of the previous outline state. -/
theorem outline_no_type_defaults (src : Nat → Nat → String)
    (i0 : NodeInfo) (children : List Node) (fuel : Nat)
    (prev : OutlineState)
    (hwf : ∀ m ∈ children, m.name ∉ typeDeclKinds)
    (hf : children.length < fuel) :
    Outline.update src fuel (Cursor.root (Node.mk i0 children)) prev =
      .ok {prev with localType := none, type_ := "class", name := none,
                     visibility := "package", static_ := false,
                     final_ := false, deprecated := false} := by
  cases children with
  | nil =>
    simp [Outline.update, traverseDeclarations, Cursor.firstChild?,
      Cursor.root, Node.children, Bind.bind, Except.bind]
  | cons y rest =>
    have hrun := outlineDeclLoop_run src fuel i0 [] rest fuel
      (Nat.lt_of_succ_lt (by simpa using hf)) y (by simpa using hwf) []
      {prev with localType := none, name := none, visibility := "package",
                 final_ := false, static_ := false, deprecated := false}
    simp only [Outline.update, traverseDeclarations, Cursor.root,
      Cursor.firstChild?, Node.children, Bind.bind, Except.bind]
    rw [hrun]
    simp

/-- Witness for C10: a program holding a package declaration, an import
declaration and a parse-error node, but no type declaration. -/
theorem outline_no_type_defaults_witness :
    (∀ m ∈ [nd "PackageDeclaration" [], nd "ImportDeclaration" [], errNd],
       Node.name m ∉ typeDeclKinds) ∧
    ([nd "PackageDeclaration" [], nd "ImportDeclaration" [], errNd] :
        List Node).length < 9 ∧
    Outline.update (subData "package p;") 9
      (Cursor.root (Node.mk ⟨"Program", false, 0, 10⟩
        [nd "PackageDeclaration" [], nd "ImportDeclaration" [], errNd]))
      OutlineState.start =
      .ok {OutlineState.start with
             localType := none, type_ := "class", name := none,
             visibility := "package", static_ := false,
             final_ := false, deprecated := false} := by
  refine ⟨?_, by simp, ?_⟩
  · intro m hm
    simp only [List.mem_cons, List.not_mem_nil, or_false] at hm
    rcases hm with h | h | h <;> subst h <;>
      simp [nd, errNd, Node.name, Node.info, typeDeclKinds]
  · refine outline_no_type_defaults (subData "package p;")
      ⟨"Program", false, 0, 10⟩ _ 9 OutlineState.start ?_ (by simp)
    intro m hm
    simp only [List.mem_cons, List.not_mem_nil, or_false] at hm
    rcases hm with h | h | h <;> subst h <;>
      simp [nd, errNd, Node.name, Node.info, typeDeclKinds]

end CmJava
